import Mathlib

/-!
Verification development for the tabular analytics pipeline of the
`intellibi` backend (`app/services/analytics.py`, the SQL-guard layer of
`app/services/chatbot.py`, and `app/services/database_connector.py`).

The Python code is shallowly embedded: pure functions become Lean
functions over an explicit `Value`/`Table` model; Python strings are
modelled as Lean `String`s manipulated through character-list helpers
that mirror the semantics of the Python string methods used by the
source (`upper`, `strip`, `split`/`join`, `replace`, `in`,
`startswith`); pandas timestamps are modelled as integer seconds since
the Unix epoch, and the calendar arithmetic used by pandas resampling is
embedded through the standard civil-calendar conversion algorithms.
Float64 cell values are modelled as exact rationals, which is faithful
for the decimal literals exercised by the specification's scenarios.
-/

/-! ## Python string-method models -/

/-- Model of Python `str.upper` for the ASCII statements handled here:
uppercase every character. -/
def pyUpper (s : String) : String :=
  String.mk (s.data.map Char.toUpper)

/-- Model of Python `str.strip` with no argument: drop leading and
trailing whitespace. -/
def pyStrip (s : String) : String :=
  String.mk ((((s.data.dropWhile Char.isWhitespace).reverse.dropWhile
      Char.isWhitespace).reverse))

/-- Accumulator pass for Python `str.split()` with no separator: split on
whitespace runs and drop empty pieces.  The second argument holds the
characters of the word currently being read, in reverse. -/
def pyWordsAux : List Char → List Char → List (List Char)
  | [], acc => if acc.isEmpty then [] else [acc.reverse]
  | c :: rest, acc =>
    if c.isWhitespace then
      if acc.isEmpty then pyWordsAux rest [] else acc.reverse :: pyWordsAux rest []
    else
      pyWordsAux rest (c :: acc)

/-- Model of Python `str.split()` with no separator. -/
def pyWords (s : String) : List String :=
  (pyWordsAux s.data []).map String.mk

/-- Model of Python `sep.join(parts)`. -/
def joinWith (sep : String) : List String → String
  | [] => ""
  | [p] => p
  | p :: q :: rest => p ++ sep ++ joinWith sep (q :: rest)

/-- Model of the whitespace normalisation `" ".join(query.split())` used
by `AnalyticsEngine.optimize_query`. -/
def pyNormalize (s : String) : String :=
  joinWith " " (pyWords s)

/-- Fuel-indexed worker for Python `str.replace`: scan left to right and
replace each non-overlapping occurrence of `pat`.  The fuel is the
length of the remaining text, which bounds the number of steps. -/
def pyReplaceAux (pat rep : List Char) : Nat → List Char → List Char
  | 0, l => l
  | _ + 1, [] => []
  | fuel + 1, c :: rest =>
    if pat.isPrefixOf (c :: rest) then
      rep ++ pyReplaceAux pat rep fuel ((c :: rest).drop pat.length)
    else
      c :: pyReplaceAux pat rep fuel rest

/-- Model of Python `s.replace(pat, rep)` for a non-empty pattern:
replace every non-overlapping occurrence, scanning left to right. -/
def pyReplace (s pat rep : String) : String :=
  String.mk (pyReplaceAux pat.data rep.data s.data.length s.data)

/-- Model of the Python substring test `needle in hay`. -/
def strContains (hay needle : String) : Prop :=
  needle.data <:+: hay.data

instance (hay needle : String) : Decidable (strContains hay needle) :=
  List.decidableInfix needle.data hay.data

/-- Model of Python `s.startswith(p)`. -/
def pyStartsWith (s p : String) : Bool :=
  p.data.isPrefixOf s.data

/-! ## Civil-calendar arithmetic

Pandas resampling is calendar aware; its bucket labelling is embedded
through the standard civil-from-days / days-from-civil conversions
(Gregorian calendar, day 0 = 1970-01-01). -/

/-- Gregorian leap-year test. -/
def isLeapYear (y : Int) : Bool :=
  (y % 4 = 0 && y % 100 ≠ 0) || y % 400 = 0

/-- Length in days of month `m` of year `y` (months numbered 1..12). -/
def daysInMonth (y m : Int) : Int :=
  if m = 2 then (if isLeapYear y then 29 else 28)
  else if m = 4 ∨ m = 6 ∨ m = 9 ∨ m = 11 then 30
  else 31

/-- Days since 1970-01-01 of the civil date `y-m-d` (months 1..12). -/
def daysFromCivil (y m d : Int) : Int :=
  let yr := if m ≤ 2 then y - 1 else y
  let era := yr / 400
  let yoe := yr - era * 400
  let doy := (153 * (if 2 < m then m - 3 else m + 9) + 2) / 5 + d - 1
  let doe := yoe * 365 + yoe / 4 - yoe / 100 + doy
  era * 146097 + doe - 719468

/-- Civil date `(y, m, d)` of the day `z` days after 1970-01-01. -/
def civilFromDays (z : Int) : Int × Int × Int :=
  let z' := z + 719468
  let era := z' / 146097
  let doe := z' - era * 146097
  let yoe := (doe - doe / 1460 + doe / 36524 - doe / 146097) / 365
  let yr := yoe + era * 400
  let doy := doe - (365 * yoe + yoe / 4 - yoe / 100)
  let mp := (5 * doy + 2) / 153
  let d := doy - (153 * mp + 2) / 5 + 1
  let m := if mp < 10 then mp + 3 else mp - 9
  (if m ≤ 2 then yr + 1 else yr, m, d)

/-- Day index (days since the epoch) of a timestamp in epoch seconds. -/
def tsDay (ts : Int) : Int := ts / 86400

/-- Seconds past midnight of a timestamp in epoch seconds. -/
def tsTimeOfDay (ts : Int) : Int := ts % 86400

/-- Left-pad the decimal rendering of a nonnegative integer to 2 digits. -/
def pad2 (n : Int) : String :=
  if n < 10 then "0" ++ toString n else toString n

/-- Left-pad the decimal rendering of a nonnegative integer to 4 digits. -/
def pad4 (n : Int) : String :=
  if n < 10 then "000" ++ toString n
  else if n < 100 then "00" ++ toString n
  else if n < 1000 then "0" ++ toString n
  else toString n

/-- ISO-8601 rendering of a timestamp (epoch seconds), matching
`Timestamp.isoformat()` at second resolution. -/
def isoString (ts : Int) : String :=
  let c := civilFromDays (tsDay ts)
  let tod := tsTimeOfDay ts
  pad4 c.1 ++ "-" ++ pad2 c.2.1 ++ "-" ++ pad2 c.2.2 ++ "T" ++
    pad2 (tod / 3600) ++ ":" ++ pad2 (tod % 3600 / 60) ++ ":" ++ pad2 (tod % 60)

/-! ## Tabular value model -/

/-- Scalar cell values of the tabular model.  `float` carries an exact
rational standing for the Float64 payload; `timestamp` is in epoch
seconds.  `null` stands for pandas NaN/NaT/None. -/
inductive Value where
  | null
  | bool (b : Bool)
  | int (n : Int)
  | float (q : ℚ)
  | text (s : String)
  | timestamp (t : Int)
deriving DecidableEq

/-- Test for the null cell. -/
def Value.isNullV : Value → Bool
  | .null => true
  | _ => false

/-- Test for a float cell. -/
def Value.isFloatV : Value → Bool
  | .float _ => true
  | _ => false

/-- Test for a numeric cell (Python `int`/`float`; `bool` is an `int`
subclass in Python and counts as numeric). -/
def Value.isNumericV : Value → Bool
  | .int _ => true
  | .float _ => true
  | .bool _ => true
  | _ => false

/-- Numeric content of a cell (Python numeric coercion: `True = 1`,
`False = 0`); `0` for non-numeric cells, which the callers exclude. -/
def Value.toQ : Value → ℚ
  | .int n => (n : ℚ)
  | .float q => q
  | .bool b => if b then 1 else 0
  | _ => 0

/-- In-memory table: named columns and row-major cells.  Every row is
read positionally against `cols`. -/
structure Table where
  cols : List String
  rows : List (List Value)
deriving DecidableEq

/-- Cell of row `r` in the column named `c`, or `none` if the column
does not exist. -/
def cellOf (cols : List String) (r : List Value) (c : String) : Option Value :=
  if c ∈ cols then some (r.getD (cols.indexOf c) Value.null) else none

/-- Operand of a filter predicate: a Python scalar or a Python list
(`between` also accepts a two-element tuple, identified with a
two-element list here). -/
inductive Operand where
  | scalar (v : Value)
  | listO (vs : List Value)
deriving DecidableEq

/-! ## Enumerations from `app/services/analytics.py` -/

/-- Supported aggregation functions (`AggregationFunction`). -/
inductive AggregationFunction where
  | SUM | AVG | COUNT | MIN | MAX | STD | VAR | MEDIAN
deriving DecidableEq

/-- String value of the `AggregationFunction` enum member. -/
def AggregationFunction.value : AggregationFunction → String
  | .SUM => "sum"
  | .AVG => "avg"
  | .COUNT => "count"
  | .MIN => "min"
  | .MAX => "max"
  | .STD => "std"
  | .VAR => "var"
  | .MEDIAN => "median"

/-- Time intervals for time-series aggregation (`TimeInterval`). -/
inductive TimeInterval where
  | SECOND | MINUTE | HOUR | DAY | WEEK | MONTH | QUARTER | YEAR
deriving DecidableEq

/-- Filter operators for WHERE clauses (`FilterOperator`). -/
inductive FilterOperator where
  | EQ | NE | GT | GTE | LT | LTE | LIKE | IN | NOT_IN
  | IS_NULL | IS_NOT_NULL | BETWEEN
deriving DecidableEq

/-- String value of the `FilterOperator` enum member. -/
def FilterOperator.value : FilterOperator → String
  | .EQ => "eq"
  | .NE => "ne"
  | .GT => "gt"
  | .GTE => "gte"
  | .LT => "lt"
  | .LTE => "lte"
  | .LIKE => "like"
  | .IN => "in"
  | .NOT_IN => "not_in"
  | .IS_NULL => "is_null"
  | .IS_NOT_NULL => "is_not_null"
  | .BETWEEN => "between"

/-- Data source kinds (`DataSourceType` in `app/models/datasource.py`). -/
inductive DataSourceType where
  | FILE | POSTGRESQL | MYSQL | MONGODB | REST_API
deriving DecidableEq

/-! ## Cell comparison semantics

`filter_data` compares cells with pandas elementwise operators.  A null
cell compares unequal (`==` gives `False`, `!=` gives `True`) and is
never less/greater than anything; `int` and `float` compare after
numeric promotion; values of different non-numeric kinds compare
unequal. -/

/-- Pandas elementwise `==` between a cell and a filter operand. -/
def cellEqB : Value → Value → Bool
  | .null, _ => false
  | _, .null => false
  | .int a, .int b => a = b
  | .int a, .float b => (a : ℚ) = b
  | .int a, .bool b => (a : ℚ) = (if b then 1 else 0)
  | .float a, .int b => a = (b : ℚ)
  | .float a, .float b => a = b
  | .float a, .bool b => a = (if b then 1 else 0)
  | .bool a, .int b => (if a then 1 else 0 : ℚ) = (b : ℚ)
  | .bool a, .float b => (if a then 1 else 0 : ℚ) = b
  | .bool a, .bool b => a = b
  | .text a, .text b => a = b
  | .timestamp a, .timestamp b => a = b
  | _, _ => false

/-- Pandas elementwise `<` between numeric cells; comparisons involving
null are `False`, mirroring NaN semantics. -/
def cellLtB : Value → Value → Bool
  | .null, _ => false
  | _, .null => false
  | a, b => if a.isNumericV && b.isNumericV then a.toQ < b.toQ
            else match a, b with
              | .text x, .text y => x.data < y.data
              | .timestamp x, .timestamp y => x < y
              | _, _ => false

/-- Textual rendering used by `astype(str)` for the `like` operator.
Null renders as the string `"nan"` (float-backed missing values). -/
def pyStr : Value → String
  | .null => "nan"
  | .bool b => if b then "True" else "False"
  | .int n => toString n
  | .float q => if q.den = 1 then toString q.num ++ ".0" else toString q.num ++ "/" ++ toString q.den
  | .text s => s
  | .timestamp t =>
      let c := civilFromDays (tsDay t)
      let tod := tsTimeOfDay t
      pad4 c.1 ++ "-" ++ pad2 c.2.1 ++ "-" ++ pad2 c.2.2 ++ " " ++
        pad2 (tod / 3600) ++ ":" ++ pad2 (tod % 3600 / 60) ++ ":" ++ pad2 (tod % 60)

/-! ## Ordering infrastructure for sorting

`DataFrame.sort_values` and `groupby(sort=True)` order cells by value.
Cells are compared through a sort key `(kind rank, numeric part, text
part)`; `int` and `float` cells share a rank so that they compare by
numeric value, and null cells are placed last (`na_position="last"`).
Kinds that pandas could not compare are given disjoint ranks, making the
comparator total. -/

/-- Three-way comparison induced by a linear order. -/
def cmpOfLt {α : Type} [LinearOrder α] (a b : α) : Ordering :=
  if a < b then .lt else if b < a then .gt else .eq

/-- Lexicographic three-way comparison of lists from a comparison on
elements. -/
def listOrdC {α : Type} (cmp : α → α → Ordering) : List α → List α → Ordering
  | [], [] => .eq
  | [], _ :: _ => .lt
  | _ :: _, [] => .gt
  | a :: as, b :: bs =>
    match cmp a b with
    | .lt => .lt
    | .gt => .gt
    | .eq => listOrdC cmp as bs

/-- Sort key of a non-null cell. -/
def cellKey : Value → Nat × ℚ × List Char
  | .null => (5, 0, [])
  | .bool b => (0, if b then 1 else 0, [])
  | .int n => (1, (n : ℚ), [])
  | .float q => (1, q, [])
  | .text s => (2, 0, s.data)
  | .timestamp t => (3, (t : ℚ), [])

/-- Three-way comparison of cell sort keys. -/
def tripOrd (x y : Nat × ℚ × List Char) : Ordering :=
  (cmpOfLt x.1 y.1).then ((cmpOfLt x.2.1 y.2.1).then (listOrdC cmpOfLt x.2.2 y.2.2))

/-- Three-way comparison of two cells under one sort key with direction
`asc`.  Null cells tie with each other and sort after every other value
regardless of direction (`na_position="last"`). -/
def keyOrd (asc : Bool) (a b : Value) : Ordering :=
  if a.isNullV && b.isNullV then .eq
  else if a.isNullV then .gt
  else if b.isNullV then .lt
  else if asc then tripOrd (cellKey a) (cellKey b) else tripOrd (cellKey b) (cellKey a)

/-- Boolean "row not greater than row" test for a list of sort keys,
each given as a column position paired with its direction. -/
def rowLeB (keys : List (Nat × Bool)) (r s : List Value) : Bool :=
  match keys with
  | [] => true
  | (i, asc) :: rest =>
    match keyOrd asc (r.getD i Value.null) (s.getD i Value.null) with
    | .lt => true
    | .gt => false
    | .eq => rowLeB rest r s

/-- Ascending comparison of group-key tuples, used for the sorted group
order of `groupby(sort=True)`. -/
def tupleLeB (a b : List Value) : Bool :=
  match listOrdC (fun x y => keyOrd true x y) a b with
  | .gt => false
  | _ => true

/-- Stable insertion of an element into a sorted list. -/
def insOne {α : Type} (le : α → α → Bool) (a : α) : List α → List α
  | [] => [a]
  | b :: bs => if le a b then a :: b :: bs else b :: insOne le a bs

/-- Stable insertion sort. -/
def insSort {α : Type} (le : α → α → Bool) : List α → List α
  | [] => []
  | a :: as => insOne le a (insSort le as)

/-- First-occurrence deduplication, as in the iteration order of pandas
group keys before sorting. -/
def dedupFO {α : Type} [DecidableEq α] : List α → List α
  | [] => []
  | a :: as => a :: (dedupFO as).filter (· ≠ a)

/-! ## SQL fragment builder (`QueryBuilder`) -/

/-- Single-quote character, used by the SQL literal formatter. -/
def sqc : String := "\x27"

/-- Zero-padding of a decimal rendering to a fixed digit width, used
for the fractional digits of a float rendering. -/
def padLeftZeros (w : ℕ) (n : ℕ) : String :=
  String.mk (List.replicate (w - (toString n).length) (Char.ofNat 48)) ++ toString n

/-- Float rendering dispatched on the least power of ten clearing the
denominator: `some 0` is a whole value (trailing `".0"`), `some (k+1)`
a terminating decimal with `k+1` fractional digits (the last one
necessarily non-zero, as Python prints the shortest decimal), `none` a
rational with no terminating decimal expansion, which corresponds to no
exact float and is rendered as a plain fraction. -/
def floatReprAt (q : ℚ) : Option ℕ → String
  | some 0 => toString q.num ++ ".0"
  | some (k + 1) =>
      (if q.num < 0 then "-" else "") ++
        toString (q.num.natAbs * (10 ^ (k + 1) / q.den) / 10 ^ (k + 1)) ++ "." ++
        padLeftZeros (k + 1) (q.num.natAbs * (10 ^ (k + 1) / q.den) % 10 ^ (k + 1))
  | none => toString q.num ++ "/" ++ toString q.den

/-- Rendering of a float by Python `str()`.  A float that is an exact
terminating decimal in the non-scientific range prints as the shortest
decimal denoting it (`str(0.5) = "0.5"`, `str(15.0) = "15.0"`,
`str(-3.25) = "-3.25"`): the rational is scaled by the least power of
ten clearing its denominator (searched below `10 ^ 64`) and printed as
integer part, point and zero-padded fractional digits. -/
def floatRepr (q : ℚ) : String :=
  floatReprAt q ((List.range 64).find? (fun k => 10 ^ k % q.den == 0))

/-- The rational one half, in normal form so that the kernel evaluates
its numerator and denominator. -/
def qHalf : ℚ := ⟨1, 2, by decide, by decide⟩

/-- The rational minus thirteen fourths (the float `-3.25`), in normal
form. -/
def qM13Q4 : ℚ := ⟨-13, 4, by decide, by decide⟩

/-- Model of `QueryBuilder._format_value`.  The Python dispatch tests
`None`, then `str`, then `(int, float)`, then timestamps, then `bool`.
Because `bool` is a subclass of `int` in Python, a boolean is caught by
the numeric branch and rendered with `str()` as `True`/`False`; the
dedicated `TRUE`/`FALSE` branch is unreachable. -/
def format_value : Value → String
  | .null => "NULL"
  | .text s => sqc ++ pyReplace s sqc (sqc ++ sqc) ++ sqc
  | .bool b => if b then "True" else "False"
  | .int n => toString n
  | .float q => floatRepr q
  | .timestamp t => sqc ++ isoString t ++ sqc

/-- Rendering of an operand by `_format_value`: scalars use the value
formatter; a Python list falls into the `str()` fallback branch.  The
list case is not reachable from any claim. -/
def format_operand : Operand → String
  | .scalar v => format_value v
  | .listO vs => sqc ++ "[" ++ joinWith ", " (vs.map pyStr) ++ "]" ++ sqc

/-- Model of `QueryBuilder._build_condition`: `none` models the Python
`return None` used for malformed operand arity. -/
def build_condition (column : String) (op : FilterOperator) (value : Operand) :
    Option String :=
  let ce := "\"" ++ column ++ "\""
  match op with
  | .EQ => some (ce ++ " = " ++ format_operand value)
  | .NE => some (ce ++ " != " ++ format_operand value)
  | .GT => some (ce ++ " > " ++ format_operand value)
  | .GTE => some (ce ++ " >= " ++ format_operand value)
  | .LT => some (ce ++ " < " ++ format_operand value)
  | .LTE => some (ce ++ " <= " ++ format_operand value)
  | .LIKE => some (ce ++ " LIKE " ++ format_operand value)
  | .IN =>
    match value with
    | .listO vs => some (ce ++ " IN (" ++ joinWith ", " (vs.map format_value) ++ ")")
    | .scalar _ => none
  | .NOT_IN =>
    match value with
    | .listO vs => some (ce ++ " NOT IN (" ++ joinWith ", " (vs.map format_value) ++ ")")
    | .scalar _ => none
  | .IS_NULL => some (ce ++ " IS NULL")
  | .IS_NOT_NULL => some (ce ++ " IS NOT NULL")
  | .BETWEEN =>
    match value with
    | .listO vs =>
      if vs.length = 2 then
        some (ce ++ " BETWEEN " ++ format_value (vs.getD 0 .null) ++ " AND " ++
          format_value (vs.getD 1 .null))
      else none
    | .scalar _ => none

/-- Aggregation entry accumulated by `QueryBuilder.aggregate`. -/
structure AggSpec where
  column : String
  function : AggregationFunction
  aliasName : String
deriving DecidableEq

/-- Join entry accumulated by `QueryBuilder.join`. -/
structure JoinSpec where
  table : String
  onClause : String
  joinType : String
deriving DecidableEq

/-- State of the SQL query builder (`QueryBuilder.__init__`). -/
structure QueryBuilder where
  table_name : String
  select_fields : List String := []
  where_conditions : List String := []
  group_by_fields : List String := []
  having_conditions : List String := []
  order_by_fields : List String := []
  limit_value : Option Int := none
  offset_value : Option Int := none
  aggregations : List AggSpec := []
  joins : List JoinSpec := []
deriving DecidableEq

namespace QueryBuilder

/-- Fresh builder for a table, as returned by
`AnalyticsEngine.build_query`. -/
def init (tableName : String) : QueryBuilder := { table_name := tableName }

/-- Model of `QueryBuilder.where`: append the built condition when it is
produced, keep the builder unchanged when the condition is `None`. -/
def whereC (qb : QueryBuilder) (column : String) (op : FilterOperator)
    (value : Operand) : QueryBuilder :=
  match build_condition column op value with
  | some c => { qb with where_conditions := qb.where_conditions ++ [c] }
  | none => qb

/-- Model of `QueryBuilder.aggregate` with optional alias. -/
def aggregate (qb : QueryBuilder) (column : String) (f : AggregationFunction)
    (aliasOpt : Option String) : QueryBuilder :=
  { qb with aggregations := qb.aggregations ++
      [{ column := column, function := f,
         aliasName := aliasOpt.getD (f.value ++ "_" ++ column) }] }

/-- Model of `QueryBuilder.build`: assemble the clause strings in fixed
order and join them with single spaces.  With no select fields and no
aggregations the projection degenerates to `*`. -/
def build (qb : QueryBuilder) : String :=
  let selectParts :=
    qb.select_fields ++ qb.aggregations.map (fun a =>
      pyUpper a.function.value ++ "(\"" ++ a.column ++ "\") AS \"" ++ a.aliasName ++ "\"")
  let selectParts := if selectParts.isEmpty then ["*"] else selectParts
  let parts :=
    ["SELECT " ++ joinWith ", " selectParts, "FROM \"" ++ qb.table_name ++ "\""]
    ++ qb.joins.map (fun j => j.joinType ++ " JOIN " ++ j.table ++ " ON " ++ j.onClause)
    ++ (if qb.where_conditions.isEmpty then []
        else ["WHERE " ++ joinWith " AND " qb.where_conditions])
    ++ (if qb.group_by_fields.isEmpty then []
        else ["GROUP BY " ++ joinWith ", "
          (qb.group_by_fields.map (fun f => "\"" ++ f ++ "\""))])
    ++ (if qb.having_conditions.isEmpty then []
        else ["HAVING " ++ joinWith " AND " qb.having_conditions])
    ++ (if qb.order_by_fields.isEmpty then []
        else ["ORDER BY " ++ joinWith ", " qb.order_by_fields])
    ++ (match qb.limit_value with | some n => ["LIMIT " ++ toString n] | none => [])
    ++ (match qb.offset_value with | some n => ["OFFSET " ++ toString n] | none => [])
  joinWith " " parts

end QueryBuilder

/-! ## Filter evaluator (`AnalyticsEngine.filter_data`) -/

/-- One filter descriptor, as the dictionaries consumed by
`filter_data`: a column name, an operator string, and an operand. -/
structure FilterItem where
  column : String
  operator : String
  value : Operand
deriving DecidableEq

/-- Pandas `isin` membership test of a cell against a list. -/
def cellInB (c : Value) (vs : List Value) : Bool :=
  vs.any (fun v => cellEqB c v || c = v)

/-- Pandas `>=`-style comparison from `<` and `==`. -/
def cellGeB (a b : Value) : Bool := cellLtB b a || cellEqB a b

/-- Pandas `<=`-style comparison from `<` and `==`. -/
def cellLeB (a b : Value) : Bool := cellLtB a b || cellEqB a b

/-- Model of one iteration of the `filter_data` loop: apply a single
filter descriptor.  An unknown column is skipped; the operator string is
matched against the `FilterOperator` values in source order; `in` and
`not_in` with a non-list operand and `between` with other than exactly
two bounds leave the frame untouched; an unknown operator string falls
through with no effect.  A scalar comparison against a list operand
would raise inside pandas and is modelled as a skip (unreachable from
the claims). -/
def applyOneFilter (t : Table) (f : FilterItem) : Table :=
  if f.column ∈ t.cols then
    let idx := t.cols.indexOf f.column
    let cell := fun (r : List Value) => r.getD idx Value.null
    if f.operator = "eq" then
      match f.value with
      | .scalar v => { t with rows := t.rows.filter (fun r => cellEqB (cell r) v) }
      | .listO _ => t
    else if f.operator = "ne" then
      match f.value with
      | .scalar v => { t with rows := t.rows.filter (fun r => !cellEqB (cell r) v) }
      | .listO _ => t
    else if f.operator = "gt" then
      match f.value with
      | .scalar v => { t with rows := t.rows.filter (fun r => cellLtB v (cell r)) }
      | .listO _ => t
    else if f.operator = "gte" then
      match f.value with
      | .scalar v => { t with rows := t.rows.filter (fun r => cellGeB (cell r) v) }
      | .listO _ => t
    else if f.operator = "lt" then
      match f.value with
      | .scalar v => { t with rows := t.rows.filter (fun r => cellLtB (cell r) v) }
      | .listO _ => t
    else if f.operator = "lte" then
      match f.value with
      | .scalar v => { t with rows := t.rows.filter (fun r => cellLeB (cell r) v) }
      | .listO _ => t
    else if f.operator = "like" then
      match f.value with
      | .scalar (.text p) =>
        { t with rows := t.rows.filter (fun r => decide (strContains (pyStr (cell r)) p)) }
      | _ => t
    else if f.operator = "in" then
      match f.value with
      | .listO vs => { t with rows := t.rows.filter (fun r => cellInB (cell r) vs) }
      | .scalar _ => t
    else if f.operator = "not_in" then
      match f.value with
      | .listO vs => { t with rows := t.rows.filter (fun r => !cellInB (cell r) vs) }
      | .scalar _ => t
    else if f.operator = "is_null" then
      { t with rows := t.rows.filter (fun r => (cell r).isNullV) }
    else if f.operator = "is_not_null" then
      { t with rows := t.rows.filter (fun r => !(cell r).isNullV) }
    else if f.operator = "between" then
      match f.value with
      | .listO vs =>
        if vs.length = 2 then
          { t with rows := t.rows.filter (fun r =>
              cellGeB (cell r) (vs.getD 0 .null) && cellLeB (cell r) (vs.getD 1 .null)) }
        else t
      | .scalar _ => t
    else t
  else t

/-- Model of `AnalyticsEngine.filter_data`: copy the frame, then apply
each filter in turn (predicates are conjoined by composition). -/
def filter_data (t : Table) (fs : List FilterItem) : Table :=
  fs.foldl applyOneFilter t

/-! ## Sorter (`AnalyticsEngine.sort_data`) -/

/-- One sort descriptor: column name and direction (`ascending`
defaults to true at the call sites, as with `item.get`). -/
structure SortKey where
  column : String
  ascending : Bool
deriving DecidableEq

/-- Valid sort keys: keys whose column exists, in order, resolved to
column positions with their directions (the `valid_sort` /
`valid_ascending` loop). -/
def validKeys (t : Table) (keys : List SortKey) : List (Nat × Bool) :=
  (keys.filter (fun k => k.column ∈ t.cols)).map
    (fun k => (t.cols.indexOf k.column, k.ascending))

/-- The outcome `AnalyticsEngine.sort_data` produces when
`DataFrame.sort_values` takes its stable path: with two or more
by-columns pandas uses numpy `lexsort`, a stable lexicographic sort,
whose result is the unique stable order modelled by a stable merge
sort.  With a single remaining by-column `sort_values` instead sorts
with the default `kind="quicksort"`, which is not stable, so only the
weaker contract `sort_data_rel` below is guaranteed there. -/
def sort_data (t : Table) (keys : List SortKey) : Table :=
  let vk := validKeys t keys
  if vk.isEmpty then t
  else { t with rows := t.rows.mergeSort (rowLeB vk) }

/-- Tuple of the cells a row exposes to the valid sort keys; two rows
compare equal under the sort exactly when their tuples coincide. -/
def sortKeyTuple (t : Table) (keys : List SortKey) (r : List Value) : List Value :=
  (validKeys t keys).map (fun p => r.getD p.1 Value.null)

/-- Contract of `AnalyticsEngine.sort_data`: keys naming absent columns
are dropped; when none remains the frame passes through unchanged;
otherwise `DataFrame.sort_values` returns the columns untouched and the
rows in some permutation ordered by the remaining keys (nulls last,
per-key direction).  Only when at least two by-columns remain does
pandas take the stable `lexsort` path, pinning the rows down to the
unique stable order (the merge-sort result); with a single by-column
the default `kind="quicksort"` applies and any key-ordered permutation
may be returned. -/
def sort_data_rel (t : Table) (keys : List SortKey) (out : Table) : Prop :=
  if (validKeys t keys).isEmpty then out = t
  else
    out.cols = t.cols ∧ out.rows.Perm t.rows ∧
      List.Pairwise (fun r s => rowLeB (validKeys t keys) r s = true) out.rows ∧
      (2 ≤ (validKeys t keys).length →
        out.rows = t.rows.mergeSort (rowLeB (validKeys t keys)))

/-- Two-column frame whose two rows are tied on column `k`, exercising
the single-key path of the sorter. -/
def tiedFrame : Table :=
  ⟨["k", "v"], [[Value.int 1, Value.int 10], [Value.int 1, Value.int 20]]⟩

/-- The tied frame with its two rows swapped. -/
def tiedFrameSwapped : Table :=
  ⟨["k", "v"], [[Value.int 1, Value.int 20], [Value.int 1, Value.int 10]]⟩

/-! ## Aggregator (`AnalyticsEngine.aggregate_data`) -/

/-- Pandas reducer name chosen by the `elif` chain of `aggregate_data`
(`avg` becomes `mean`; the other names map to themselves). -/
def pandasAggName (f : AggregationFunction) : String :=
  match f with
  | .SUM => "sum"
  | .AVG => "mean"
  | .COUNT => "count"
  | .MIN => "min"
  | .MAX => "max"
  | .STD => "std"
  | .VAR => "var"
  | .MEDIAN => "median"

/-- Python `dict` assignment `d[k] = v`: overwrite in place if the key
exists (keeping its position), otherwise append. -/
def dictInsert {β : Type} (d : List (String × β)) (k : String) (v : β) :
    List (String × β) :=
  if d.any (fun p => p.1 = k) then d.map (fun p => if p.1 = k then (k, v) else p)
  else d ++ [(k, v)]

/-- The `agg_dict` built by `aggregate_data` for the grouped path: keyed
by column, so a later function for the same column overwrites the
earlier one; columns absent from the frame are skipped. -/
def buildAggDict (cols : List String)
    (aggs : List (String × List AggregationFunction)) : List (String × String) :=
  aggs.foldl
    (fun d p =>
      if p.1 ∈ cols then p.2.foldl (fun d' f => dictInsert d' p.1 (pandasAggName f)) d
      else d)
    []

/-- Test for a text cell. -/
def Value.isTextV : Value → Bool
  | .text _ => true
  | _ => false

/-- Integer content of an int/bool cell. -/
def Value.toZ : Value → Int
  | .int n => n
  | .bool b => if b then 1 else 0
  | _ => 0

/-- Non-null cells, as pandas reducers skip missing values. -/
def nonNull (cells : List Value) : List Value :=
  cells.filter (fun v => !v.isNullV)

/-- Rational sum of numeric cells. -/
def sumQ (l : List Value) : ℚ := l.foldl (fun acc v => acc + v.toQ) 0

/-- Integer sum of int/bool cells. -/
def sumZ (l : List Value) : Int := l.foldl (fun acc v => acc + v.toZ) 0

/-- Pandas `sum` reduction: sums non-null values; an integer column sums
to an integer, a column containing floats to a float; an all-text
column concatenates; an empty/all-null numeric column sums to `0.0`. -/
def aggSum (cells : List Value) : Value :=
  let nn := nonNull cells
  if nn.isEmpty then .float 0
  else if nn.all (fun v => v.isNumericV) then
    if nn.any (fun v => v.isFloatV) then .float (sumQ nn) else .int (sumZ nn)
  else if nn.all (fun v => v.isTextV) then
    .text (nn.foldl (fun acc v => acc ++ pyStr v) "")
  else .null

/-- Pandas `mean` reduction over the non-null numeric values. -/
def aggMean (cells : List Value) : Value :=
  let nn := nonNull cells
  if nn.isEmpty then .null
  else .float (sumQ nn / (nn.length : ℚ))

/-- Pandas `count` reduction: number of non-null values. -/
def aggCount (cells : List Value) : Value :=
  .int ((nonNull cells).length)

/-- Pandas `min` reduction: least non-null cell. -/
def aggMin (cells : List Value) : Value :=
  match nonNull cells with
  | [] => .null
  | a :: rest =>
    rest.foldl (fun acc v => if tripOrd (cellKey v) (cellKey acc) = .lt then v else acc) a

/-- Pandas `max` reduction: greatest non-null cell. -/
def aggMax (cells : List Value) : Value :=
  match nonNull cells with
  | [] => .null
  | a :: rest =>
    rest.foldl (fun acc v => if tripOrd (cellKey acc) (cellKey v) = .lt then v else acc) a

/-- Pandas sample variance (divisor `n - 1`); `NaN` (modelled `null`)
when fewer than two numeric values are present. -/
def aggVar (cells : List Value) : Value :=
  let xs := ((nonNull cells).filter (fun v => v.isNumericV)).map Value.toQ
  if xs.length ≤ 1 then .null
  else
    let m := (xs.foldl (· + ·) 0) / (xs.length : ℚ)
    .float ((xs.foldl (fun acc x => acc + (x - m) * (x - m)) 0) / ((xs.length : ℚ) - 1))

/-- Pandas sample standard deviation is the square root of the sample
variance and is irrational in general, so it has no exact value in the
rational cell model; it is mapped to `null` here and is not relied on by
any claim. -/
def aggStd (_cells : List Value) : Value := .null

/-- Pandas `median` reduction with linear interpolation: mean of the two
middle order statistics for even counts. -/
def aggMedian (cells : List Value) : Value :=
  let xs := insSort (fun a b => decide (a ≤ b))
    (((nonNull cells).filter (fun v => v.isNumericV)).map Value.toQ)
  if xs.length = 0 then .null
  else if xs.length % 2 = 1 then .float (xs.getD (xs.length / 2) 0)
  else .float ((xs.getD (xs.length / 2 - 1) 0 + xs.getD (xs.length / 2) 0) / 2)

/-- Dispatch on the pandas reducer name stored in `agg_dict`. -/
def applyAggName (name : String) (cells : List Value) : Value :=
  if name = "sum" then aggSum cells
  else if name = "mean" then aggMean cells
  else if name = "count" then aggCount cells
  else if name = "min" then aggMin cells
  else if name = "max" then aggMax cells
  else if name = "std" then aggStd cells
  else if name = "var" then aggVar cells
  else if name = "median" then aggMedian cells
  else .null

/-- Group-key tuple of a row for the given group-by columns. -/
def keyCells (cols : List String) (gb : List String) (r : List Value) : List Value :=
  gb.map (fun c => r.getD (cols.indexOf c) Value.null)

/-- Grouped path of `aggregate_data`: group keys exclude rows with a
null key component (`groupby` default `dropna=True`), distinct keys are
emitted in sorted order (`sort=True`), and the aggregated columns keep
the names of the `agg_dict` keys — the source column names.  With an
empty `agg_dict` the result degenerates to per-group row counts labelled
`count`. -/
def aggregateGrouped (t : Table) (gb : List String)
    (aggs : List (String × List AggregationFunction)) : Table :=
  let aggDict := buildAggDict t.cols aggs
  let keyed := t.rows.filter (fun r => (keyCells t.cols gb r).all (fun v => !v.isNullV))
  let keys := insSort tupleLeB (dedupFO (keyed.map (keyCells t.cols gb)))
  let grpRows := fun (k : List Value) => keyed.filter (fun r => decide (keyCells t.cols gb r = k))
  if aggDict.isEmpty then
    { cols := gb ++ ["count"],
      rows := keys.map (fun k => k ++ [.int ((grpRows k).length)]) }
  else
    { cols := gb ++ aggDict.map Prod.fst,
      rows := keys.map (fun k => k ++ aggDict.map
        (fun p => applyAggName p.2 ((grpRows k).map (fun r => r.getD (t.cols.indexOf p.1) Value.null)))) }

/-- Ungrouped path of `aggregate_data`: one column per requested
(column, function) pair named `"{column}_{function}"` (repeated names
overwrite, as dataframe column assignment does), and a single row of
whole-column reductions; with no produced column the result is the empty
frame. -/
def aggregateUngrouped (t : Table)
    (aggs : List (String × List AggregationFunction)) : Table :=
  let entries := aggs.foldl
    (fun (es : List (String × Value)) p =>
      if p.1 ∈ t.cols then
        p.2.foldl (fun es' f =>
          dictInsert es' (p.1 ++ "_" ++ f.value)
            (applyAggName (pandasAggName f)
              (t.rows.map (fun r => r.getD (t.cols.indexOf p.1) Value.null)))) es
      else es)
    []
  if entries.isEmpty then { cols := [], rows := [] }
  else { cols := entries.map Prod.fst, rows := [entries.map Prod.snd] }

/-- Model of `AnalyticsEngine.aggregate_data`.  A non-empty `group_by`
list takes the grouped path; a group-by column absent from the frame
raises `KeyError` inside `groupby`, modelled as `none`. -/
def aggregate_data (t : Table) (gb : List String)
    (aggs : List (String × List AggregationFunction)) : Option Table :=
  if gb.isEmpty then some (aggregateUngrouped t aggs)
  else if gb.all (· ∈ t.cols) then some (aggregateGrouped t gb aggs)
  else none

/-! ## Time bucketer (`AnalyticsEngine.process_time_series`)

The resampling frequencies chosen by the source are the pandas aliases
`S`, `T`, `H`, `D`, `W`, `M`, `Q`, `Y`.  Pandas labels the fixed-width
frequencies `S`/`T`/`H`/`D` by the left edge (the truncated timestamp),
while `W` is `W-SUN` (weeks ending on Sunday, labelled by that Sunday)
and `M`/`Q`/`Y` label each bucket by the last calendar day of the
period (month end; Mar/Jun/Sep/Dec end; Dec 31).  The label functions
below embed exactly that labelling at second resolution. -/

/-- Day index of the Sunday on or after day `d` (day 0, 1970-01-01, was
a Thursday; weekday `(d + 3) % 7` with Monday = 0). -/
def weekLabelDay (d : Int) : Int := d + (3 - d) % 7

/-- Day index of the last day of month `m` of year `y`. -/
def monthEndDay (y m : Int) : Int := daysFromCivil y m (daysInMonth y m)

/-- Last month (3, 6, 9 or 12) of the quarter containing month `m`. -/
def quarterEndMonth (m : Int) : Int := 3 * ((m + 2) / 3)

/-- Day index of December 31 of year `y`. -/
def yearEndDay (y : Int) : Int := daysFromCivil y 12 31

/-- Bucket label assigned by the pandas resampling frequency chosen by
`process_time_series` for each `TimeInterval`, at second resolution. -/
def bucketLabel (iv : TimeInterval) (ts : Int) : Int :=
  match iv with
  | .SECOND => ts
  | .MINUTE => 60 * (ts / 60)
  | .HOUR => 3600 * (ts / 3600)
  | .DAY => 86400 * tsDay ts
  | .WEEK => 86400 * weekLabelDay (tsDay ts)
  | .MONTH =>
    let c := civilFromDays (tsDay ts)
    86400 * monthEndDay c.1 c.2.1
  | .QUARTER =>
    let c := civilFromDays (tsDay ts)
    86400 * monthEndDay c.1 (quarterEndMonth c.2.1)
  | .YEAR =>
    let c := civilFromDays (tsDay ts)
    86400 * yearEndDay c.1

/-- Bucket start described by the specification's calendar rule (week
buckets starting Monday 00:00, month buckets on day 1, quarter buckets
on the first day of Jan/Apr/Jul/Oct, year buckets on Jan 1), written
from the specification's words for comparison with `bucketLabel`. -/
def claimBucketStart (iv : TimeInterval) (ts : Int) : Int :=
  match iv with
  | .SECOND => ts
  | .MINUTE => 60 * (ts / 60)
  | .HOUR => 3600 * (ts / 3600)
  | .DAY => 86400 * tsDay ts
  | .WEEK => 86400 * (tsDay ts - (tsDay ts + 3) % 7)
  | .MONTH =>
    let c := civilFromDays (tsDay ts)
    86400 * daysFromCivil c.1 c.2.1 1
  | .QUARTER =>
    let c := civilFromDays (tsDay ts)
    86400 * daysFromCivil c.1 (quarterEndMonth c.2.1 - 2) 1
  | .YEAR =>
    let c := civilFromDays (tsDay ts)
    86400 * daysFromCivil c.1 1 1

/-- Numeric value of a decimal digit character. -/
def digitVal (c : Char) : Option Int :=
  if c.isDigit then some ((c.toNat : Int) - 48) else none

/-- Two-digit decimal number. -/
def num2 (a b : Char) : Option Int := do
  pure (10 * (← digitVal a) + (← digitVal b))

/-- Four-digit decimal number. -/
def num4 (a b c d : Char) : Option Int := do
  pure (1000 * (← digitVal a) + 100 * (← digitVal b) + 10 * (← digitVal c) + (← digitVal d))

/-- Epoch seconds of a validated civil datetime. -/
def mkTs (y mo dy hh mi ss : Int) : Option Int :=
  if 1 ≤ mo ∧ mo ≤ 12 ∧ 1 ≤ dy ∧ dy ≤ daysInMonth y mo ∧
      0 ≤ hh ∧ hh < 24 ∧ 0 ≤ mi ∧ mi < 60 ∧ 0 ≤ ss ∧ ss < 60 then
    some (86400 * daysFromCivil y mo dy + 3600 * hh + 60 * mi + ss)
  else none

/-- ISO date / datetime forms accepted by the timestamp coercion model
(`YYYY-MM-DD`, optionally followed by a space- or `T`-separated
`HH:MM:SS`).  `pd.to_datetime` accepts further formats that no claim
exercises. -/
def parseIsoChars : List Char → Option Int
  | [y1, y2, y3, y4, '-', m1, m2, '-', d1, d2] => do
    mkTs (← num4 y1 y2 y3 y4) (← num2 m1 m2) (← num2 d1 d2) 0 0 0
  | [y1, y2, y3, y4, '-', m1, m2, '-', d1, d2, sep, h1, h2, ':', n1, n2, ':', s1, s2] =>
    if sep = ' ' ∨ sep = 'T' then do
      mkTs (← num4 y1 y2 y3 y4) (← num2 m1 m2) (← num2 d1 d2)
        (← num2 h1 h2) (← num2 n1 n2) (← num2 s1 s2)
    else none
  | _ => none

/-- Model of `pd.to_datetime(value, errors="coerce")` on one cell:
timestamps pass through, parseable text becomes a timestamp,
unparseable values become `NaT` (modelled `null`); a bare number is
interpreted as nanoseconds since the epoch. -/
def coerceTs : Value → Value
  | .timestamp t => .timestamp t
  | .null => .null
  | .text s =>
    match parseIsoChars s.data with
    | some n => .timestamp n
    | none => .null
  | .int n => .timestamp (n / 1000000000)
  | .float q => .timestamp ((⌊q⌋ : Int) / 1000000000)
  | .bool _ => .null

/-! ## Frame effects of the pipeline stages

Each `*_arg_after` function gives the state of the caller's frame after
the stage returns, making the Python-level mutation question explicit.
`filter_data` copies its input (`df.copy()`), `aggregate_data` only
reads it through `groupby`, and `sort_data` returns the new frame from
`sort_values`; none of the three touches the argument.
`process_time_series` however executes
`df[time_column] = pd.to_datetime(df[time_column], errors="coerce")`
before re-binding `df`, writing the coerced column back into the
caller's frame (the subsequent `dropna`/`set_index` re-bind only). -/

/-- Frame state after `filter_data` returns: unchanged. -/
def filter_data_arg_after (t : Table) (_fs : List FilterItem) : Table := t

/-- Frame state after `aggregate_data` returns: unchanged. -/
def aggregate_data_arg_after (t : Table) (_gb : List String)
    (_aggs : List (String × List AggregationFunction)) : Table := t

/-- Frame state after `sort_data` returns: unchanged. -/
def sort_data_arg_after (t : Table) (_keys : List SortKey) : Table := t

/-- Frame state after `process_time_series` returns (or raises): when
the time column exists, its cells have been coerced to timestamps in
place; with an unknown time column the call raises `ValueError` before
touching the frame. -/
def process_time_series_arg_after (t : Table) (timeCol : String) : Table :=
  if timeCol ∈ t.cols then
    let idx := t.cols.indexOf timeCol
    { t with rows := t.rows.map (fun r => r.set idx (coerceTs (r.getD idx Value.null))) }
  else t

/-! ## Query advisor (`AnalyticsEngine.optimize_query`) -/

/-- Model of `AnalyticsEngine.optimize_query`: whitespace is normalised;
containment tests run on the upper-cased, stripped original text, while
the textual edit (`str.replace` of `"OFFSET"`, or appending
`" LIMIT 1000"`) runs on the normalised original-case text. -/
def optimize_query (query : String) : String :=
  let query_upper := pyStrip (pyUpper query)
  let q := pyNormalize query
  if strContains query_upper "SELECT" ∧ ¬ strContains query_upper "LIMIT" then
    if ¬ strContains query_upper "GROUP BY" ∧ ¬ strContains query_upper "UNION" then
      if strContains query_upper "OFFSET" then
        pyReplace q "OFFSET" "LIMIT 1000 OFFSET"
      else
        q ++ " LIMIT 1000"
    else q
  else q

/-! ## SQL execution entry points -/

/-- Outcome of a SQL execution entry point, up to the collaborator
boundary: either the statement is rejected with an error payload before
any collaborator call, or it is dispatched to the database connector
unchanged. -/
inductive ExecOutcome where
  | rejected (error : String)
  | dispatched (query : String)
deriving DecidableEq

/-- The `dangerous_keywords` list of `ChatbotService.execute_query`, in
source order. -/
def dangerous_keywords : List String :=
  ["DROP", "DELETE", "TRUNCATE", "ALTER", "CREATE", "INSERT", "UPDATE"]

namespace ChatbotService

/-- Model of the validation prefix of `ChatbotService.execute_query`:
the upper-cased, stripped statement is scanned for the dangerous
keywords in order and the first hit is rejected; a statement that does
not begin with `SELECT` is rejected; otherwise the statement is
dispatched unchanged to `AnalyticsEngine.execute_query`. -/
def execute_query (sql_query : String) : ExecOutcome :=
  let sql_upper := pyStrip (pyUpper sql_query)
  match dangerous_keywords.find? (fun k => decide (strContains sql_upper k)) with
  | some k =>
    .rejected ("Query contains dangerous keyword \x27" ++ k ++
      "\x27. Only SELECT queries are allowed.")
  | none =>
    if pyStartsWith sql_upper "SELECT" then .dispatched sql_query
    else .rejected "Only SELECT queries are allowed."

end ChatbotService

namespace AnalyticsEngine

/-- Model of `AnalyticsEngine.execute_query`: the only validation is the
data-source kind; for a database source the statement is forwarded to
`DatabaseConnector.execute_query` unchanged (`rejected` here models the
`ValueError` raised for non-database sources). -/
def execute_query (dsType : DataSourceType) (query : String) : ExecOutcome :=
  if dsType = .POSTGRESQL ∨ dsType = .MYSQL then .dispatched query
  else .rejected "SQL queries can only be executed on database data sources"

end AnalyticsEngine

/-- The end-to-end scenario table of the specification: columns
`region : Text`, `amount : Float64` with three rows. -/
def exampleTable : Table :=
  { cols := ["region", "amount"],
    rows := [[.text "east", .float 10], [.text "west", .float 20],
             [.text "east", .float 5]] }

/-! ## Shared helper lemmas -/

/-- Containment is monotone along prefixes of the needle: Python
`k2 in q` implies `k1 in q` whenever `k1` is a prefix of `k2`. -/
theorem strContains_of_prefix_contains {q k1 k2 : String}
    (hp : k1.data <+: k2.data) (h : strContains q k2) : strContains q k1 :=
  hp.isInfix.trans h

/-- Inserting with `insOne` adds exactly one element. -/
theorem insOne_length {α : Type} (le : α → α → Bool) (a : α) (l : List α) :
    (insOne le a l).length = l.length + 1 := by
  induction l with
  | nil => rfl
  | cons b bs ih =>
    simp only [insOne]
    split
    · simp
    · simp [ih]

/-- Insertion sort preserves length. -/
theorem insSort_length {α : Type} (le : α → α → Bool) (l : List α) :
    (insSort le l).length = l.length := by
  induction l with
  | nil => rfl
  | cons a as ih => simp [insSort, insOne_length, ih]

/-- Insertion produces a permutation of consing. -/
theorem insOne_perm {α : Type} (le : α → α → Bool) (a : α) (l : List α) :
    (insOne le a l).Perm (a :: l) := by
  induction l with
  | nil => exact List.Perm.refl _
  | cons b bs ih =>
    simp only [insOne]
    split
    · exact List.Perm.refl _
    · exact (List.Perm.cons b ih).trans (List.Perm.swap a b bs)

/-- Insertion sort permutes its input. -/
theorem insSort_perm {α : Type} (le : α → α → Bool) (l : List α) :
    (insSort le l).Perm l := by
  induction l with
  | nil => exact List.Perm.refl _
  | cons a as ih => exact (insOne_perm le a (insSort le as)).trans (ih.cons a)

/-- Members of the deduplicated list are members of the original. -/
theorem mem_of_mem_dedupFO {α : Type} [DecidableEq α] {a : α} {l : List α}
    (h : a ∈ dedupFO l) : a ∈ l := by
  induction l with
  | nil => simp [dedupFO] at h
  | cons b bs ih =>
    simp only [dedupFO, List.mem_cons] at h
    rcases h with h | h
    · simp [h]
    · exact List.mem_cons_of_mem _ (ih (List.mem_of_mem_filter h))

/-- First-occurrence deduplication yields a duplicate-free list. -/
theorem dedupFO_nodup {α : Type} [DecidableEq α] (l : List α) :
    (dedupFO l).Nodup := by
  induction l with
  | nil => exact List.nodup_nil
  | cons a as ih =>
    refine List.Nodup.cons ?_ (ih.filter _)
    intro hmem
    have := List.of_mem_filter hmem
    simp at this

/-- The head of a joined list is a prefix of the join. -/
theorem prefix_joinWith (sep : String) (a : String) (rest : List String) :
    a.data <+: (joinWith sep (a :: rest)).data := by
  cases rest with
  | nil => exact List.prefix_refl _
  | cons b t =>
    show a.data <+: (a ++ sep ++ joinWith sep (b :: t)).data
    refine ⟨sep.data ++ (joinWith sep (b :: t)).data, ?_⟩
    simp [String.data_append]

/-! ## C5 — SQL literal formatting -/

/-- C5 counterexample: the claim says booleans render as `TRUE`/`FALSE`,
but Python's `bool` is a subclass of `int`, so `_format_value` hits the
numeric branch first and renders `str(True) = "True"`. -/
theorem format_value_bool_counterexample :
    format_value (.bool true) = "True" ∧ ("True" : String) ≠ "TRUE" := by
  exact ⟨rfl, by decide⟩

/-- `find?` over an initial range of naturals returns the least index
satisfying the predicate. -/
theorem find_range_min {p : ℕ → Bool} :
    ∀ {n k : ℕ}, k < n → p k = true → (∀ j, j < k → p j = false) →
      (List.range n).find? p = some k := by
  intro n
  induction n with
  | zero => intro k hk _ _; exact absurd hk (Nat.not_lt_zero k)
  | succ n ih =>
    intro k hk hp hmin
    rw [List.range_succ, List.find?_append]
    by_cases h : k < n
    · rw [ih h hp hmin]
      rfl
    · have hkn : k = n := by omega
      have hnone : (List.range n).find? p = none := by
        rw [List.find?_eq_none]
        intro x hx
        have hxk : x < k := by
          have := List.mem_range.mp hx
          omega
        simp [hmin x hxk]
      rw [hnone]
      subst hkn
      simp [List.find?, hp]

/-- C5 (amended): `_format_value` renders `Null` as `NULL`; text
single-quote-wrapped with each internal quote doubled (`O'Brien`
becomes `'O''Brien'`); integers unchanged via `str()`; floats unchanged
via `str()`, which for an exact terminating decimal prints the decimal
digits — a whole value with a trailing `".0"`, otherwise integer part,
point and the fractional digits given by the least power of ten
clearing the denominator (`0.5` prints as `0.5`, `-3.25` as `-3.25`,
never quoted); booleans as the unquoted Python literals `True`/`False`
(the `TRUE`/`FALSE` branch is dead code because `bool` is an `int`
subclass); and timestamps as a quoted ISO-8601 string. -/
theorem format_value_spec :
    format_value .null = "NULL" ∧
    (∀ s, format_value (.text s) = sqc ++ pyReplace s sqc (sqc ++ sqc) ++ sqc) ∧
    format_value (.text "O\x27Brien") = "\x27O\x27\x27Brien\x27" ∧
    (∀ b, format_value (.bool b) = if b then "True" else "False") ∧
    (∀ n : Int, format_value (.int n) = toString n) ∧
    (∀ q : ℚ, q.den = 1 → format_value (.float q) = toString q.num ++ ".0") ∧
    (∀ (q : ℚ) (k : ℕ), k + 1 < 64 → q.den ∣ 10 ^ (k + 1) →
      (∀ j, j ≤ k → ¬ q.den ∣ 10 ^ j) →
      format_value (.float q) =
        (if q.num < 0 then "-" else "") ++
          toString (q.num.natAbs * (10 ^ (k + 1) / q.den) / 10 ^ (k + 1)) ++ "." ++
          padLeftZeros (k + 1) (q.num.natAbs * (10 ^ (k + 1) / q.den) % 10 ^ (k + 1))) ∧
    format_value (.float qHalf) = "0.5" ∧
    format_value (.float qM13Q4) = "-3.25" ∧
    (∀ t : Int, format_value (.timestamp t) = sqc ++ isoString t ++ sqc) ∧
    format_value (.timestamp 1610668800) = "\x272021-01-15T00:00:00\x27" := by
  refine ⟨rfl, fun s => rfl, by decide, fun b => rfl, fun n => rfl, ?_, ?_,
    by decide, by decide, fun t => rfl, by decide⟩
  · intro q hq
    show floatRepr q = _
    unfold floatRepr
    have hfind : (List.range 64).find? (fun k => 10 ^ k % q.den == 0) = some 0 :=
      find_range_min (by omega) (by simp [hq])
        (fun j hj => absurd hj (Nat.not_lt_zero j))
    rw [hfind]
    rfl
  · intro q k hk hdvd hmin
    show floatRepr q = _
    unfold floatRepr
    have hfind : (List.range 64).find? (fun j => 10 ^ j % q.den == 0) = some (k + 1) := by
      apply find_range_min hk
      · have h0 : 10 ^ (k + 1) % q.den = 0 := Nat.mod_eq_zero_of_dvd hdvd
        simp [h0]
      · intro j hj
        have hnd : ¬ q.den ∣ 10 ^ j := hmin j (by omega)
        have hne : 10 ^ j % q.den ≠ 0 := fun h0 =>
          hnd (Nat.dvd_of_mod_eq_zero h0)
        simp [hne]
    rw [hfind]
    rfl

/-- C5 witness: the decimal float rendering applied at one half. -/
theorem format_value_spec_witness :
    format_value (.float qHalf) = "0.5" := by
  have h := format_value_spec.2.2.2.2.2.2.1 qHalf 0 (by decide) (by decide)
    (fun j hj => by
      have hj0 : j = 0 := Nat.le_zero.mp hj
      subst hj0
      decide)
  rw [h]
  decide

/-! ## C1 — SQL statement guarding -/

/-- C1 counterexample: the engine's SQL entry point
(`AnalyticsEngine.execute_query`) performs no keyword validation: a
statement containing `DROP TABLE` is dispatched unchanged to the
database connector rather than rejected. -/
theorem engine_execute_counterexample :
    AnalyticsEngine.execute_query .POSTGRESQL "DROP TABLE users" =
      .dispatched "DROP TABLE users" ∧
    strContains (pyStrip (pyUpper "DROP TABLE users")) "DROP TABLE" := by
  exact ⟨by decide, by decide⟩

/-- C1 (amended): the mutating-keyword / leading-`SELECT` guard lives in
`ChatbotService.execute_query`, not in `AnalyticsEngine.execute_query`:
any statement whose upper-cased text contains a dangerous keyword, or
does not begin with `SELECT`, is rejected there before any collaborator
call; in particular a statement containing `DROP TABLE` anywhere
(case-insensitively) is rejected with the `DROP` keyword error. -/
theorem chatbot_guard :
    (∀ q k, k ∈ dangerous_keywords → strContains (pyStrip (pyUpper q)) k →
      ∃ m, ChatbotService.execute_query q = .rejected m) ∧
    (∀ q, pyStartsWith (pyStrip (pyUpper q)) "SELECT" = false →
      ∃ m, ChatbotService.execute_query q = .rejected m) ∧
    (∀ q, strContains (pyStrip (pyUpper q)) "DROP TABLE" →
      ChatbotService.execute_query q = .rejected
        ("Query contains dangerous keyword \x27DROP\x27. Only SELECT queries are allowed.")) := by
  refine ⟨?_, ?_, ?_⟩
  · intro q k hk hc
    rcases hfind : dangerous_keywords.find?
        (fun k' => decide (strContains (pyStrip (pyUpper q)) k')) with _ | k'
    · exfalso
      have := List.find?_eq_none.mp hfind k hk
      simp [hc] at this
    · exact ⟨"Query contains dangerous keyword \x27" ++ k' ++
        "\x27. Only SELECT queries are allowed.",
        by simp only [ChatbotService.execute_query, hfind]⟩
  · intro q hs
    rcases hfind : dangerous_keywords.find?
        (fun k' => decide (strContains (pyStrip (pyUpper q)) k')) with _ | k'
    · exact ⟨"Only SELECT queries are allowed.",
        by simp only [ChatbotService.execute_query, hfind, hs]; rfl⟩
    · exact ⟨"Query contains dangerous keyword \x27" ++ k' ++
        "\x27. Only SELECT queries are allowed.",
        by simp only [ChatbotService.execute_query, hfind]⟩
  · intro q h
    have hd : strContains (pyStrip (pyUpper q)) "DROP" :=
      strContains_of_prefix_contains (by decide) h
    have hfind : dangerous_keywords.find?
        (fun k' => decide (strContains (pyStrip (pyUpper q)) k')) = some "DROP" := by
      simp [dangerous_keywords, List.find?, hd]
    simp only [ChatbotService.execute_query, hfind]
    rfl

/-- C1 witness: the guard applied to a concrete `DROP TABLE` statement. -/
theorem chatbot_guard_witness :
    ChatbotService.execute_query "DROP TABLE users" = .rejected
      ("Query contains dangerous keyword \x27DROP\x27. Only SELECT queries are allowed.") :=
  chatbot_guard.2.2 "DROP TABLE users" (by decide)

/-! ## C4 — query advisor -/

/-- C4 counterexample: `"select * from t offset 5"` is a plain `SELECT`
without a `LIMIT` and with an `OFFSET` clause, yet `optimize_query`
returns it without any `LIMIT`: the textual `str.replace` of the
uppercase literal `"OFFSET"` finds nothing in the lower-case statement. -/
theorem optimize_query_counterexample :
    strContains (pyStrip (pyUpper "select * from t offset 5")) "SELECT" ∧
    ¬ strContains (pyStrip (pyUpper "select * from t offset 5")) "LIMIT" ∧
    ¬ strContains (pyStrip (pyUpper "select * from t offset 5")) "GROUP BY" ∧
    ¬ strContains (pyStrip (pyUpper "select * from t offset 5")) "UNION" ∧
    strContains (pyStrip (pyUpper "select * from t offset 5")) "OFFSET" ∧
    optimize_query "select * from t offset 5" = "select * from t offset 5" ∧
    ¬ strContains (pyUpper (optimize_query "select * from t offset 5")) "LIMIT" := by
  refine ⟨by decide, by decide, by decide, by decide, by decide, by decide, by decide⟩

/-- C4 (amended): `optimize_query` normalises whitespace; a statement
whose upper-cased text contains `LIMIT`, or contains no `SELECT`, or
contains `GROUP BY` or `UNION`, is returned whitespace-normalised only;
a plain bound-less `SELECT` with no `OFFSET` gets `" LIMIT 1000"`
appended; when the upper-cased text contains `OFFSET`, the edit is a
case-sensitive `str.replace` of the uppercase literal `"OFFSET"` by
`"LIMIT 1000 OFFSET"` on the normalised original-case text (so a
lower-case `offset` suppresses the bound entirely); each branch is
stated for every statement, and the spec's three examples hold. -/
theorem optimize_query_spec :
    optimize_query "SELECT * FROM t" = "SELECT * FROM t LIMIT 1000" ∧
    optimize_query "SELECT * FROM t LIMIT 5" = "SELECT * FROM t LIMIT 5" ∧
    optimize_query "SELECT * FROM t GROUP BY c" = "SELECT * FROM t GROUP BY c" ∧
    optimize_query "SELECT * FROM t OFFSET 5" = "SELECT * FROM t LIMIT 1000 OFFSET 5" ∧
    (∀ q, strContains (pyStrip (pyUpper q)) "LIMIT" → optimize_query q = pyNormalize q) ∧
    (∀ q, ¬ strContains (pyStrip (pyUpper q)) "SELECT" → optimize_query q = pyNormalize q) ∧
    (∀ q, strContains (pyStrip (pyUpper q)) "GROUP BY" → optimize_query q = pyNormalize q) ∧
    (∀ q, strContains (pyStrip (pyUpper q)) "UNION" → optimize_query q = pyNormalize q) ∧
    (∀ q, strContains (pyStrip (pyUpper q)) "SELECT" →
      ¬ strContains (pyStrip (pyUpper q)) "LIMIT" →
      ¬ strContains (pyStrip (pyUpper q)) "GROUP BY" →
      ¬ strContains (pyStrip (pyUpper q)) "UNION" →
      strContains (pyStrip (pyUpper q)) "OFFSET" →
      optimize_query q = pyReplace (pyNormalize q) "OFFSET" "LIMIT 1000 OFFSET") ∧
    (∀ q, strContains (pyStrip (pyUpper q)) "SELECT" →
      ¬ strContains (pyStrip (pyUpper q)) "LIMIT" →
      ¬ strContains (pyStrip (pyUpper q)) "GROUP BY" →
      ¬ strContains (pyStrip (pyUpper q)) "UNION" →
      ¬ strContains (pyStrip (pyUpper q)) "OFFSET" →
      optimize_query q = pyNormalize q ++ " LIMIT 1000") := by
  refine ⟨by decide, by decide, by decide, by decide, ?_, ?_, ?_, ?_, ?_, ?_⟩
  · intro q h
    unfold optimize_query
    rw [if_neg]
    rintro ⟨-, hn⟩
    exact hn h
  · intro q h
    unfold optimize_query
    rw [if_neg]
    rintro ⟨hs, -⟩
    exact h hs
  · intro q h
    unfold optimize_query
    by_cases h1 : strContains (pyStrip (pyUpper q)) "SELECT" ∧
        ¬ strContains (pyStrip (pyUpper q)) "LIMIT"
    · rw [if_pos h1, if_neg]
      rintro ⟨hg, -⟩
      exact hg h
    · rw [if_neg h1]
  · intro q h
    unfold optimize_query
    by_cases h1 : strContains (pyStrip (pyUpper q)) "SELECT" ∧
        ¬ strContains (pyStrip (pyUpper q)) "LIMIT"
    · rw [if_pos h1, if_neg]
      rintro ⟨-, hu⟩
      exact hu h
    · rw [if_neg h1]
  · intro q hs hl hg hu ho
    unfold optimize_query
    rw [if_pos ⟨hs, hl⟩, if_pos ⟨hg, hu⟩, if_pos ho]
  · intro q hs hl hg hu ho
    unfold optimize_query
    rw [if_pos ⟨hs, hl⟩, if_pos ⟨hg, hu⟩, if_neg ho]

/-- C4 witness: the advisor leaves a bounded statement alone. -/
theorem optimize_query_spec_witness :
    optimize_query "SELECT a FROM t LIMIT 7" = pyNormalize "SELECT a FROM t LIMIT 7" :=
  optimize_query_spec.2.2.2.2.1 "SELECT a FROM t LIMIT 7" (by decide)

/-! ## C9 — operand arity mismatches are no-ops -/

/-- C9: in both the filter evaluator and the SQL fragment builder, an
`in`/`not_in` predicate with a non-list operand or a `between` predicate
with other than exactly two bounds is a no-op — the frame passes through
unfiltered, the builder emits no clause and `where` leaves the builder
unchanged — and filtering composes one predicate at a time, so all other
predicates still apply. -/
theorem arity_mismatch_noop :
    (∀ t c (v : Value), applyOneFilter t ⟨c, "in", .scalar v⟩ = t) ∧
    (∀ t c (v : Value), applyOneFilter t ⟨c, "not_in", .scalar v⟩ = t) ∧
    (∀ t c (vs : List Value), vs.length ≠ 2 →
      applyOneFilter t ⟨c, "between", .listO vs⟩ = t) ∧
    (∀ t (f : FilterItem) fs, filter_data t (f :: fs) = filter_data (applyOneFilter t f) fs) ∧
    (∀ c (v : Value), build_condition c .IN (.scalar v) = none) ∧
    (∀ c (v : Value), build_condition c .NOT_IN (.scalar v) = none) ∧
    (∀ c (vs : List Value), vs.length ≠ 2 →
      build_condition c .BETWEEN (.listO vs) = none) ∧
    (∀ qb c (v : Value), QueryBuilder.whereC qb c .IN (.scalar v) = qb) ∧
    (∀ qb c (v : Value), QueryBuilder.whereC qb c .NOT_IN (.scalar v) = qb) ∧
    (∀ qb c (vs : List Value), vs.length ≠ 2 →
      QueryBuilder.whereC qb c .BETWEEN (.listO vs) = qb) := by
  refine ⟨?_, ?_, ?_, fun t f fs => rfl, fun c v => rfl, fun c v => rfl, ?_, ?_, ?_, ?_⟩
  · intro t c v
    simp [applyOneFilter]
  · intro t c v
    simp [applyOneFilter]
  · intro t c vs h
    simp [applyOneFilter, h]
  · intro c vs h
    simp [build_condition, h]
  · intro qb c v
    rfl
  · intro qb c v
    rfl
  · intro qb c vs h
    simp [QueryBuilder.whereC, build_condition, h]

/-- C9 witness: a `between` predicate with three bounds leaves a
concrete frame untouched. -/
theorem arity_mismatch_noop_witness :
    applyOneFilter ⟨["a"], [[Value.int 1]]⟩
      ⟨"a", "between", .listO [Value.null, Value.null, Value.null]⟩ =
      ⟨["a"], [[Value.int 1]]⟩ :=
  arity_mismatch_noop.2.2.1 ⟨["a"], [[Value.int 1]]⟩ "a"
    [Value.null, Value.null, Value.null] (by decide)

/-! ## C6 — null cells under filtering -/

/-- C6 counterexample: a null cell satisfies an `ne` predicate — pandas
`!=` is elementwise negation of `==`, and `NaN == v` is false — so the
null row is kept, while the claim demands that it never satisfy `ne`. -/
theorem null_ne_counterexample :
    (applyOneFilter ⟨["c"], [[Value.null]]⟩ ⟨"c", "ne", .scalar (.text "x")⟩).rows
      = [[Value.null]] ∧
    ([[Value.null]] : List (List Value)) ≠ [] := by
  exact ⟨by decide, by decide⟩

/-- Shape of the `ne` branch of `applyOneFilter` on a present column. -/
theorem applyOneFilter_ne (t : Table) (c : String) (v : Value) (hm : c ∈ t.cols) :
    applyOneFilter t ⟨c, "ne", .scalar v⟩ =
      { t with rows :=
          (t.rows.filter (fun row => !cellEqB (row.getD (t.cols.indexOf c) Value.null) v)) } := by
  simp [applyOneFilter, hm]

/-- Shape of the `eq` branch of `applyOneFilter` on a present column. -/
theorem applyOneFilter_eq (t : Table) (c : String) (v : Value) (hm : c ∈ t.cols) :
    applyOneFilter t ⟨c, "eq", .scalar v⟩ =
      { t with rows :=
          (t.rows.filter (fun row => cellEqB (row.getD (t.cols.indexOf c) Value.null) v)) } := by
  simp [applyOneFilter, hm]

/-- Shape of the `is_null` branch of `applyOneFilter` on a present
column. -/
theorem applyOneFilter_is_null (t : Table) (c : String) (v : Value) (hm : c ∈ t.cols) :
    applyOneFilter t ⟨c, "is_null", .scalar v⟩ =
      { t with rows :=
          (t.rows.filter (fun row => (row.getD (t.cols.indexOf c) Value.null).isNullV)) } := by
  simp [applyOneFilter, hm]

/-- Shape of the `is_not_null` branch of `applyOneFilter` on a present
column. -/
theorem applyOneFilter_is_not_null (t : Table) (c : String) (v : Value) (hm : c ∈ t.cols) :
    applyOneFilter t ⟨c, "is_not_null", .scalar v⟩ =
      { t with rows :=
          (t.rows.filter (fun row => !(row.getD (t.cols.indexOf c) Value.null).isNullV)) } := by
  simp [applyOneFilter, hm]

/-- C6 (amended): a row whose cell in the predicate's column is null
never satisfies `eq`, satisfies `ne` for every operand (pandas `!=`
yields `True` on missing values), satisfies `is_null` and fails
`is_not_null`. -/
theorem null_cell_filter :
    (∀ v : Value, cellEqB .null v = false) ∧
    (∀ t c (v : Value) r, r ∈ t.rows → cellOf t.cols r c = some .null →
      (r ∈ (applyOneFilter t ⟨c, "ne", .scalar v⟩).rows ∧
       r ∉ (applyOneFilter t ⟨c, "eq", .scalar v⟩).rows ∧
       r ∈ (applyOneFilter t ⟨c, "is_null", .scalar v⟩).rows ∧
       r ∉ (applyOneFilter t ⟨c, "is_not_null", .scalar v⟩).rows)) := by
  have hnull : ∀ v : Value, cellEqB .null v = false := by
    intro v
    cases v <;> rfl
  refine ⟨hnull, ?_⟩
  intro t c v r hr hcell
  unfold cellOf at hcell
  by_cases hm : c ∈ t.cols
  · rw [if_pos hm] at hcell
    have hgetd : r.getD (t.cols.indexOf c) Value.null = Value.null :=
      Option.some.inj hcell
    refine ⟨?_, ?_, ?_, ?_⟩
    · rw [applyOneFilter_ne t c v hm]
      exact List.mem_filter.mpr ⟨hr, by rw [hgetd, hnull v]; rfl⟩
    · rw [applyOneFilter_eq t c v hm]
      intro habs
      have h2 := (List.mem_filter.mp habs).2
      rw [hgetd, hnull v] at h2
      exact absurd h2 (by decide)
    · rw [applyOneFilter_is_null t c v hm]
      exact List.mem_filter.mpr ⟨hr, by rw [hgetd]; rfl⟩
    · rw [applyOneFilter_is_not_null t c v hm]
      intro habs
      have h2 := (List.mem_filter.mp habs).2
      rw [hgetd] at h2
      exact absurd h2 (by decide)
  · rw [if_neg hm] at hcell
    exact absurd hcell (by simp)

/-- C6 witness: the four null-cell facts at a concrete one-row frame. -/
theorem null_cell_filter_witness :
    [Value.null] ∈ (applyOneFilter ⟨["c"], [[Value.null]]⟩
      ⟨"c", "ne", .scalar (.text "x")⟩).rows ∧
    [Value.null] ∉ (applyOneFilter ⟨["c"], [[Value.null]]⟩
      ⟨"c", "eq", .scalar (.text "x")⟩).rows ∧
    [Value.null] ∈ (applyOneFilter ⟨["c"], [[Value.null]]⟩
      ⟨"c", "is_null", .scalar (.text "x")⟩).rows ∧
    [Value.null] ∉ (applyOneFilter ⟨["c"], [[Value.null]]⟩
      ⟨"c", "is_not_null", .scalar (.text "x")⟩).rows :=
  null_cell_filter.2 ⟨["c"], [[Value.null]]⟩ "c" (.text "x") [Value.null]
    (by decide) (by decide)

/-! ## C7 — frame effects of the pipeline stages -/

/-- C7 counterexample: the time bucketer mutates its argument — after
the call, the caller's frame holds the coerced timestamp where the text
date stood, so the stage is not a pure transform of an unchanged
input. -/
theorem time_series_mutation_counterexample :
    process_time_series_arg_after ⟨["ts"], [[Value.text "2021-01-15"]]⟩ "ts" ≠
      ⟨["ts"], [[Value.text "2021-01-15"]]⟩ ∧
    process_time_series_arg_after ⟨["ts"], [[Value.text "2021-01-15"]]⟩ "ts" =
      ⟨["ts"], [[Value.timestamp 1610668800]]⟩ := by
  exact ⟨by decide, by decide⟩

/-- C7 (amended): the filter, aggregate and sort stages leave the
caller's frame unchanged; the time-bucket stage preserves the column
list, the row count and every column other than the time column, but
coerces the time column of the caller's frame to timestamps in place. -/
theorem stage_frame_effects :
    (∀ t fs, filter_data_arg_after t fs = t) ∧
    (∀ t gb aggs, aggregate_data_arg_after t gb aggs = t) ∧
    (∀ t keys, sort_data_arg_after t keys = t) ∧
    (∀ t c, (process_time_series_arg_after t c).cols = t.cols) ∧
    (∀ t c, (process_time_series_arg_after t c).rows.length = t.rows.length) ∧
    (∀ t c j, j < t.cols.length → t.cols.getD j "" ≠ c →
      (process_time_series_arg_after t c).rows.map (fun r => r.getD j Value.null) =
        t.rows.map (fun r => r.getD j Value.null)) := by
  refine ⟨fun t fs => rfl, fun t gb aggs => rfl, fun t keys => rfl, ?_, ?_, ?_⟩
  · intro t c
    unfold process_time_series_arg_after
    split <;> rfl
  · intro t c
    unfold process_time_series_arg_after
    split
    · simp
    · rfl
  · intro t c j hj hne
    unfold process_time_series_arg_after
    by_cases hm : c ∈ t.cols
    · rw [if_pos hm]
      simp only [List.map_map]
      refine List.map_congr_left ?_
      intro r _
      have hij : t.cols.indexOf c ≠ j := by
        intro heq
        apply hne
        have hlt : t.cols.indexOf c < t.cols.length := List.indexOf_lt_length.mpr hm
        have hval := List.getElem_indexOf hlt
        subst heq
        rw [List.getD_eq_getElem?_getD, List.getElem?_eq_getElem hlt]
        simp [hval]
      show (r.set (t.cols.indexOf c) _).getD j Value.null = r.getD j Value.null
      simp [List.getD_eq_getElem?_getD, List.getElem?_set_ne hij]
    · rw [if_neg hm]

/-- C7 witness: the frame-effect facts at a concrete two-column frame. -/
theorem stage_frame_effects_witness :
    (1 : Nat) < (2 : Nat) ∧
    (process_time_series_arg_after ⟨["ts", "v"], [[Value.text "a", Value.int 1]]⟩
        "ts").rows.map (fun r => r.getD 1 Value.null) =
      ([[Value.text "a", Value.int 1]] : List (List Value)).map
        (fun r => r.getD 1 Value.null) :=
  ⟨by decide,
    stage_frame_effects.2.2.2.2.2 ⟨["ts", "v"], [[Value.text "a", Value.int 1]]⟩
      "ts" 1 (by decide) (by decide)⟩

/-! ## C10 — default projection of the SQL builder -/

/-- Concatenated heads are a prefix of the join of the two-element-or-
longer list. -/
theorem prefix_joinWith₂ (sep a b : String) (rest : List String) :
    (a ++ sep ++ b).data <+: (joinWith sep (a :: b :: rest)).data := by
  show (a ++ sep ++ b).data <+: (a ++ sep ++ joinWith sep (b :: rest)).data
  obtain ⟨tl, ht⟩ := prefix_joinWith sep b rest
  refine ⟨tl, ?_⟩
  simp only [String.data_append, List.append_assoc]
  rw [ht]

/-- C10: a builder holding no select fields and no aggregations emits
the projection `SELECT *`: the built statement begins with
`SELECT * FROM "table"`. -/
theorem build_select_star (qb : QueryBuilder)
    (h1 : qb.select_fields = []) (h2 : qb.aggregations = []) :
    ("SELECT * FROM \"" ++ qb.table_name ++ "\"").data <+: (qb.build).data := by
  obtain ⟨tn, sf, wc, gbf, hcv, ob, lv, ov, ag, js⟩ := qb
  simp only at h1 h2
  subst h1
  subst h2
  have hbuild : QueryBuilder.build ⟨tn, [], wc, gbf, hcv, ob, lv, ov, [], js⟩ =
      joinWith " " (("SELECT " ++ joinWith ", " ["*"]) :: ("FROM \"" ++ tn ++ "\"") ::
        (js.map (fun j => j.joinType ++ " JOIN " ++ j.table ++ " ON " ++ j.onClause)
          ++ (if wc.isEmpty then [] else ["WHERE " ++ joinWith " AND " wc])
          ++ (if gbf.isEmpty then []
              else ["GROUP BY " ++ joinWith ", " (gbf.map (fun f => "\"" ++ f ++ "\""))])
          ++ (if hcv.isEmpty then [] else ["HAVING " ++ joinWith " AND " hcv])
          ++ (if ob.isEmpty then [] else ["ORDER BY " ++ joinWith ", " ob])
          ++ (match lv with | some n => ["LIMIT " ++ toString n] | none => [])
          ++ (match ov with | some n => ["OFFSET " ++ toString n] | none => []))) := rfl
  rw [hbuild]
  have hdata : ("SELECT * FROM \"" ++ tn ++ "\"").data =
      (("SELECT " ++ joinWith ", " ["*"]) ++ " " ++ ("FROM \"" ++ tn ++ "\"")).data := by
    simp [show joinWith ", " ["*"] = "*" from rfl]
  rw [hdata]
  exact prefix_joinWith₂ " " _ _ _

/-- C10 witness: a fresh builder for a concrete table. -/
theorem build_select_star_witness :
    ("SELECT * FROM \"" ++ (QueryBuilder.init "users").table_name ++ "\"").data <+:
      ((QueryBuilder.init "users").build).data :=
  build_select_star (QueryBuilder.init "users") rfl rfl

/-! ## C2 — grouped aggregation -/

/-- C2 counterexample: the grouped path stores the reducer in a
column-keyed `agg_dict`, so `grouped.agg` keeps the source column name —
the end-to-end scenario's aggregated column is named `amount`, not the
claimed default alias `amount_sum`. -/
theorem aggregate_alias_counterexample :
    (aggregate_data exampleTable ["region"] [("amount", [AggregationFunction.SUM])]).map
      Table.cols = some ["region", "amount"] ∧
    "amount_sum" ∉ (["region", "amount"] : List String) := by
  exact ⟨by decide, by decide⟩

/-- C2 (amended): for a non-empty group-by list of existing columns the
grouped path yields one row per distinct group-key tuple among the rows
with no null key component, with pairwise-distinct key tuples; its
columns are the group-by columns followed by one column per requested
column present in the frame, named by the source column (a later
function for the same column overwrites the earlier one), or a single
`count` column when no aggregation survives.  On the end-to-end
scenario the grouped sum yields `east ↦ 15.0`, `west ↦ 20.0` under the
column name `amount`. -/
theorem aggregate_grouped_spec :
    (∀ t gb aggs, gb ≠ [] → gb.all (· ∈ t.cols) →
      ∃ res, aggregate_data t gb aggs = some res ∧
        res.cols = gb ++ (if (buildAggDict t.cols aggs).isEmpty then ["count"]
          else (buildAggDict t.cols aggs).map Prod.fst) ∧
        res.rows.length = (dedupFO ((t.rows.filter
          (fun r => (keyCells t.cols gb r).all (fun v => !v.isNullV))).map
          (keyCells t.cols gb))).length ∧
        (res.rows.map (fun r => r.take gb.length)).Nodup) ∧
    aggregate_data exampleTable ["region"] [("amount", [AggregationFunction.SUM])]
      = some { cols := ["region", "amount"],
               rows := [[.text "east", .float 15], [.text "west", .float 20]] } := by
  constructor
  · intro t gb aggs hne hall
    have hgb : ¬ gb.isEmpty := by
      cases gb with
      | nil => exact absurd rfl hne
      | cons a as => simp
    refine ⟨aggregateGrouped t gb aggs, ?_, ?_, ?_, ?_⟩
    · unfold aggregate_data
      rw [if_neg (by simpa using hgb), if_pos hall]
    · unfold aggregateGrouped
      by_cases hd : (buildAggDict t.cols aggs).isEmpty
      · rw [if_pos hd, if_pos hd]
      · rw [if_neg hd, if_neg hd]
    · unfold aggregateGrouped
      by_cases hd : (buildAggDict t.cols aggs).isEmpty
      · rw [if_pos hd]
        simp [insSort_length]
      · rw [if_neg hd]
        simp [insSort_length]
    · have hkeylen : ∀ r, (keyCells t.cols gb r).length = gb.length := by
        intro r
        simp [keyCells]
      have htake : ∀ (k : List Value) (tail : List Value), k.length = gb.length →
          (k ++ tail).take gb.length = k := by
        intro k tail hk
        rw [← hk]
        exact List.take_left k tail
      have hkeys : ((insSort tupleLeB (dedupFO ((t.rows.filter
          (fun r => (keyCells t.cols gb r).all (fun v => !v.isNullV))).map
          (keyCells t.cols gb))))).Nodup :=
        (insSort_perm tupleLeB _).symm.nodup (dedupFO_nodup _)
      unfold aggregateGrouped
      by_cases hd : (buildAggDict t.cols aggs).isEmpty
      · rw [if_pos hd]
        simp only [List.map_map]
        have : ∀ k ∈ (insSort tupleLeB (dedupFO ((t.rows.filter
            (fun r => (keyCells t.cols gb r).all (fun v => !v.isNullV))).map
            (keyCells t.cols gb)))), ((fun r => r.take gb.length) ∘
              (fun k => k ++ [Value.int ((t.rows.filter
                (fun r => (keyCells t.cols gb r).all (fun v => !v.isNullV))).filter
                  (fun r => decide (keyCells t.cols gb r = k))).length])) k = id k := by
          intro k hk
          have hk' := mem_of_mem_dedupFO ((insSort_perm _ _).mem_iff.mp hk)
          obtain ⟨r, _, hr⟩ := List.mem_map.mp hk'
          exact htake k _ (by rw [← hr, hkeylen])
        rw [List.map_congr_left this]
        simpa using hkeys
      · rw [if_neg hd]
        simp only [List.map_map]
        have : ∀ k ∈ (insSort tupleLeB (dedupFO ((t.rows.filter
            (fun r => (keyCells t.cols gb r).all (fun v => !v.isNullV))).map
            (keyCells t.cols gb)))), ((fun r => r.take gb.length) ∘
              (fun k => k ++ (buildAggDict t.cols aggs).map
                (fun p => applyAggName p.2 (((t.rows.filter
                  (fun r => (keyCells t.cols gb r).all (fun v => !v.isNullV))).filter
                    (fun r => decide (keyCells t.cols gb r = k))).map
                      (fun r => r.getD (t.cols.indexOf p.1) Value.null))))) k = id k := by
          intro k hk
          have hk' := mem_of_mem_dedupFO ((insSort_perm _ _).mem_iff.mp hk)
          obtain ⟨r, _, hr⟩ := List.mem_map.mp hk'
          exact htake k _ (by rw [← hr, hkeylen])
        rw [List.map_congr_left this]
        simpa using hkeys
  · have h1 : aggSum [Value.float 10, Value.float 5] = .float 15 :=
      congrArg Value.float (by norm_num : ((0 : ℚ) + 10 + 5) = 15)
    have h2 : aggSum [Value.float 20] = .float 20 :=
      congrArg Value.float (by norm_num : ((0 : ℚ) + 20) = 20)
    calc aggregate_data exampleTable ["region"] [("amount", [AggregationFunction.SUM])]
        = some { cols := ["region", "amount"],
                 rows := [[.text "east", aggSum [Value.float 10, Value.float 5]],
                          [.text "west", aggSum [Value.float 20]]] } := by rfl
      _ = some { cols := ["region", "amount"],
                 rows := [[.text "east", .float 15], [.text "west", .float 20]] } := by
            rw [h1, h2]

/-- C2 witness: the shape facts at a concrete integer frame. -/
theorem aggregate_grouped_spec_witness :
    ∃ res, aggregate_data ⟨["g", "x"], [[Value.int 1, Value.int 2]]⟩ ["g"]
        [("x", [AggregationFunction.SUM])] = some res ∧
      res.cols = ["g"] ++ (if (buildAggDict ["g", "x"]
          [("x", [AggregationFunction.SUM])]).isEmpty then ["count"]
        else (buildAggDict ["g", "x"] [("x", [AggregationFunction.SUM])]).map Prod.fst) ∧
      res.rows.length = (dedupFO ((([[Value.int 1, Value.int 2]] :
          List (List Value)).filter
        (fun r => (keyCells ["g", "x"] ["g"] r).all (fun v => !v.isNullV))).map
        (keyCells ["g", "x"] ["g"]))).length ∧
      (res.rows.map (fun r => r.take (["g"] : List String).length)).Nodup :=
  aggregate_grouped_spec.1 ⟨["g", "x"], [[Value.int 1, Value.int 2]]⟩ ["g"]
    [("x", [AggregationFunction.SUM])] (by decide) (by decide)

/-! ## C3 — calendar bucket labelling -/

/-- C3 counterexample: for a timestamp on 2021-01-15, the month bucket
is labelled 2021-01-31 (pandas `M` is month-end labelled), not the
claimed calendar bucket start 2021-01-01. -/
theorem bucket_label_counterexample :
    bucketLabel .MONTH 1610668800 = 1612051200 ∧
    claimBucketStart .MONTH 1610668800 = 1609459200 ∧
    bucketLabel .MONTH 1610668800 ≠ claimBucketStart .MONTH 1610668800 := by
  exact ⟨by decide, by decide, by decide⟩

/-- C3 (amended): the second/minute/hour/day buckets are labelled by the
fixed-duration truncation of the timestamp (the bucket start), but the
calendar intervals are labelled by the bucket end: the week label is the
Sunday on or after the timestamp's day (within a week, weekday
`(d+3) % 7 = 6` means Sunday), the month label is the last day of the
month (the day before the next month's first day), the quarter label is
the last day of the quarter's closing month (3, 6, 9 or 12, the largest
quarter month at or after the timestamp's month), and the year label is
December 31 (the day before January 1 of the next year). -/
theorem bucketLabel_calendar :
    (∀ ts : Int, bucketLabel .SECOND ts = ts) ∧
    (∀ ts : Int, bucketLabel .MINUTE ts ≤ ts ∧ ts < bucketLabel .MINUTE ts + 60 ∧
      bucketLabel .MINUTE ts % 60 = 0) ∧
    (∀ ts : Int, bucketLabel .HOUR ts ≤ ts ∧ ts < bucketLabel .HOUR ts + 3600 ∧
      bucketLabel .HOUR ts % 3600 = 0) ∧
    (∀ ts : Int, bucketLabel .DAY ts ≤ ts ∧ ts < bucketLabel .DAY ts + 86400 ∧
      bucketLabel .DAY ts % 86400 = 0) ∧
    (∀ d : Int, d ≤ weekLabelDay d ∧ weekLabelDay d < d + 7 ∧
      (weekLabelDay d + 3) % 7 = 6) ∧
    (∀ y m : Int, 1 ≤ m → m ≤ 12 → monthEndDay y m + 1 =
      (if m = 12 then daysFromCivil (y + 1) 1 1 else daysFromCivil y (m + 1) 1)) ∧
    (∀ m : Int, 1 ≤ m → m ≤ 12 →
      (quarterEndMonth m = 3 ∨ quarterEndMonth m = 6 ∨ quarterEndMonth m = 9 ∨
        quarterEndMonth m = 12) ∧
      quarterEndMonth m - 2 ≤ m ∧ m ≤ quarterEndMonth m) ∧
    (∀ y : Int, yearEndDay y + 1 = daysFromCivil (y + 1) 1 1) := by
  refine ⟨fun ts => rfl, ?_, ?_, ?_, ?_, ?_, ?_, ?_⟩
  · intro ts
    show 60 * (ts / 60) ≤ ts ∧ ts < 60 * (ts / 60) + 60 ∧ 60 * (ts / 60) % 60 = 0
    omega
  · intro ts
    show 3600 * (ts / 3600) ≤ ts ∧ ts < 3600 * (ts / 3600) + 3600 ∧
      3600 * (ts / 3600) % 3600 = 0
    omega
  · intro ts
    show 86400 * (ts / 86400) ≤ ts ∧ ts < 86400 * (ts / 86400) + 86400 ∧
      86400 * (ts / 86400) % 86400 = 0
    omega
  · intro d
    unfold weekLabelDay
    omega
  · intro y m h1 h2
    interval_cases m <;>
      simp [monthEndDay, daysFromCivil, daysInMonth, isLeapYear] <;>
      omega
  · intro m h1 h2
    unfold quarterEndMonth
    omega
  · intro y
    simp [yearEndDay, daysFromCivil]
    omega

/-- C3 witness: the month-end identity at April 2021. -/
theorem bucketLabel_calendar_witness :
    (1 : Int) ≤ 4 ∧ (4 : Int) ≤ 12 ∧ monthEndDay 2021 4 + 1 =
      (if (4 : Int) = 12 then daysFromCivil (2021 + 1) 1 1
       else daysFromCivil 2021 (4 + 1) 1) :=
  ⟨by decide, by decide, bucketLabel_calendar.2.2.2.2.2.1 2021 4 (by decide) (by decide)⟩

/-! ## Comparator laws for the sorter -/

/-- The three-way comparison of a linear order is `eq` exactly on equal
arguments. -/
theorem cmpOfLt_eq_iff {α : Type} [LinearOrder α] (a b : α) :
    cmpOfLt a b = .eq ↔ a = b := by
  unfold cmpOfLt
  split_ifs with h1 h2
  · exact ⟨fun h => absurd h (by simp), fun h => absurd h (ne_of_lt h1)⟩
  · exact ⟨fun h => absurd h (by simp), fun h => absurd h (ne_of_gt h2)⟩
  · exact ⟨fun _ => le_antisymm (le_of_not_lt h2) (le_of_not_lt h1), fun _ => rfl⟩

/-- Swapping arguments swaps the three-way comparison. -/
theorem cmpOfLt_swap {α : Type} [LinearOrder α] (a b : α) :
    (cmpOfLt a b).swap = cmpOfLt b a := by
  rcases lt_trichotomy a b with h | h | h
  · simp [cmpOfLt, h, lt_asymm h, Ordering.swap]
  · subst h
    simp [cmpOfLt, lt_irrefl, Ordering.swap]
  · simp [cmpOfLt, h, lt_asymm h, Ordering.swap]

/-- The three-way comparison is `lt` exactly when the first argument is
smaller. -/
theorem cmpOfLt_lt_iff {α : Type} [LinearOrder α] (a b : α) :
    cmpOfLt a b = .lt ↔ a < b := by
  unfold cmpOfLt
  split_ifs with h1 h2 <;> simp [h1]

/-- Strict three-way comparisons compose transitively. -/
theorem cmpOfLt_lt_trans {α : Type} [LinearOrder α] {a b c : α}
    (h1 : cmpOfLt a b = .lt) (h2 : cmpOfLt b c = .lt) : cmpOfLt a c = .lt :=
  (cmpOfLt_lt_iff a c).mpr (lt_trans ((cmpOfLt_lt_iff a b).mp h1) ((cmpOfLt_lt_iff b c).mp h2))

/-- Lexicographic list comparison is `eq` exactly on equal lists, when
the element comparison is. -/
theorem listOrdC_eq_iff {α : Type} (cmp : α → α → Ordering)
    (hcmp : ∀ a b : α, cmp a b = .eq ↔ a = b) :
    ∀ l1 l2 : List α, listOrdC cmp l1 l2 = .eq ↔ l1 = l2 := by
  intro l1
  induction l1 with
  | nil =>
    intro l2
    cases l2 <;> simp [listOrdC]
  | cons a as ih =>
    intro l2
    cases l2 with
    | nil => simp [listOrdC]
    | cons b bs =>
      simp only [listOrdC]
      cases hc : cmp a b with
      | lt =>
        have : a ≠ b := fun h => by simp [(hcmp a b).mpr h] at hc
        simp [this]
      | gt =>
        have : a ≠ b := fun h => by simp [(hcmp a b).mpr h] at hc
        simp [this]
      | eq =>
        have hab : a = b := (hcmp a b).mp hc
        subst hab
        simp [ih bs]

/-- Swapping arguments swaps the lexicographic list comparison, when it
swaps the element comparison. -/
theorem listOrdC_swap {α : Type} (cmp : α → α → Ordering)
    (hswap : ∀ a b : α, (cmp a b).swap = cmp b a) :
    ∀ l1 l2 : List α, (listOrdC cmp l1 l2).swap = listOrdC cmp l2 l1 := by
  intro l1
  induction l1 with
  | nil =>
    intro l2
    cases l2 <;> rfl
  | cons a as ih =>
    intro l2
    cases l2 with
    | nil => rfl
    | cons b bs =>
      simp only [listOrdC]
      cases hc : cmp a b with
      | lt =>
        rw [← hswap a b, hc]
        rfl
      | gt =>
        rw [← hswap a b, hc]
        rfl
      | eq =>
        rw [← hswap a b, hc]
        simpa using ih bs

/-- Lexicographic `lt` is transitive when the element comparison is
lawful and identifies `eq` with equality. -/
theorem listOrdC_lt_trans {α : Type} (cmp : α → α → Ordering)
    (hcmp : ∀ a b : α, cmp a b = .eq ↔ a = b)
    (htr : ∀ {a b c : α}, cmp a b = .lt → cmp b c = .lt → cmp a c = .lt) :
    ∀ {l1 l2 l3 : List α}, listOrdC cmp l1 l2 = .lt → listOrdC cmp l2 l3 = .lt →
      listOrdC cmp l1 l3 = .lt := by
  intro l1
  induction l1 with
  | nil =>
    intro l2 l3 h1 h2
    cases l2 with
    | nil => exact h2
    | cons b bs =>
      cases l3 with
      | nil => simp [listOrdC] at h2
      | cons c cs => rfl
  | cons a as ih =>
    intro l2 l3 h1 h2
    cases l2 with
    | nil => simp [listOrdC] at h1
    | cons b bs =>
      cases l3 with
      | nil => simp [listOrdC] at h2
      | cons c cs =>
        simp only [listOrdC] at h1 h2 ⊢
        rcases hab : cmp a b with _ | _ | _
        · rcases hbc : cmp b c with _ | _ | _
          · rw [htr hab hbc]
          · have hbceq : b = c := (hcmp b c).mp hbc
            subst hbceq
            rw [hab]
          · rw [hbc] at h2
            exact absurd h2 (by simp)
        · have habeq : a = b := (hcmp a b).mp hab
          subst habeq
          rw [hab] at h1
          rcases hac : cmp a c with _ | _ | _
          · rfl
          · rw [hac] at h2
            exact ih h1 h2
          · rw [hac] at h2
            exact absurd h2 (by simp)
        · rw [hab] at h1
          exact absurd h1 (by simp)

/-- The cell-key comparison is `eq` exactly on equal keys. -/
theorem tripOrd_eq_iff (x y : Nat × ℚ × List Char) : tripOrd x y = .eq ↔ x = y := by
  unfold tripOrd
  cases h1 : cmpOfLt x.1 y.1 with
  | lt =>
    have hne : x ≠ y := by
      intro h
      subst h
      rw [(cmpOfLt_eq_iff x.1 x.1).mpr rfl] at h1
      exact absurd h1 (by simp)
    simp [Ordering.then, hne]
  | gt =>
    have hne : x ≠ y := by
      intro h
      subst h
      rw [(cmpOfLt_eq_iff x.1 x.1).mpr rfl] at h1
      exact absurd h1 (by simp)
    simp [Ordering.then, hne]
  | eq =>
    have e1 : x.1 = y.1 := (cmpOfLt_eq_iff x.1 y.1).mp h1
    cases h2 : cmpOfLt x.2.1 y.2.1 with
    | lt =>
      have hne : x ≠ y := by
        intro h
        subst h
        rw [(cmpOfLt_eq_iff x.2.1 x.2.1).mpr rfl] at h2
        exact absurd h2 (by simp)
      simp [Ordering.then, hne]
    | gt =>
      have hne : x ≠ y := by
        intro h
        subst h
        rw [(cmpOfLt_eq_iff x.2.1 x.2.1).mpr rfl] at h2
        exact absurd h2 (by simp)
      simp [Ordering.then, hne]
    | eq =>
      have e2 : x.2.1 = y.2.1 := (cmpOfLt_eq_iff x.2.1 y.2.1).mp h2
      have e3 := listOrdC_eq_iff ((@cmpOfLt Char _)) cmpOfLt_eq_iff x.2.2 y.2.2
      simp only [Ordering.then, e3]
      constructor
      · intro h
        exact Prod.ext e1 (Prod.ext e2 h)
      · intro h
        rw [h]

/-- Swapping distributes over `Ordering.then`. -/
theorem then_swap (o1 o2 : Ordering) : (o1.then o2).swap = o1.swap.then o2.swap := by
  cases o1 <;> rfl

/-- A lexicographic combination is `eq` exactly when both components
are. -/
theorem then_eq_iff (o1 o2 : Ordering) : o1.then o2 = .eq ↔ o1 = .eq ∧ o2 = .eq := by
  cases o1 <;> simp [Ordering.then]

/-- Strict transitivity for a lexicographic combination of two lawful
comparisons. -/
theorem thenComp_lt_trans {α : Type} (f g : α → α → Ordering)
    (hft : ∀ {a b c : α}, f a b = .lt → f b c = .lt → f a c = .lt)
    (hfl : ∀ {a b : α} (c : α), f a b = .eq → f a c = f b c)
    (hfr : ∀ {b c : α} (a : α), f b c = .eq → f a b = f a c)
    (hgt : ∀ {a b c : α}, g a b = .lt → g b c = .lt → g a c = .lt)
    {a b c : α} (h1 : (f a b).then (g a b) = .lt) (h2 : (f b c).then (g b c) = .lt) :
    (f a c).then (g a c) = .lt := by
  rcases hab : f a b with _ | _ | _ <;> rw [hab] at h1
  · rcases hbc : f b c with _ | _ | _ <;> rw [hbc] at h2
    · rw [hft hab hbc]
      rfl
    · rw [← hfr a hbc, hab]
      rfl
    · exact absurd h2 (by simp [Ordering.then])
  · simp only [Ordering.then] at h1
    rcases hbc : f b c with _ | _ | _ <;> rw [hbc] at h2
    · rw [hfl c hab, hbc]
      rfl
    · simp only [Ordering.then] at h2
      rw [hfl c hab, hbc]
      simp only [Ordering.then]
      exact hgt h1 h2
    · exact absurd h2 (by simp [Ordering.then])
  · exact absurd h1 (by simp [Ordering.then])

/-- Swapping arguments swaps the cell-key comparison. -/
theorem tripOrd_swap (x y : Nat × ℚ × List Char) : (tripOrd x y).swap = tripOrd y x := by
  unfold tripOrd
  rw [then_swap, then_swap, cmpOfLt_swap, cmpOfLt_swap,
    listOrdC_swap ((@cmpOfLt Char _)) cmpOfLt_swap]

/-- The cell-key comparison is strictly transitive. -/
theorem tripOrd_lt_trans {x y z : Nat × ℚ × List Char}
    (h1 : tripOrd x y = .lt) (h2 : tripOrd y z = .lt) : tripOrd x z = .lt := by
  unfold tripOrd at h1 h2 ⊢
  refine thenComp_lt_trans (fun (x y : Nat × ℚ × List Char) => cmpOfLt x.1 y.1)
    (fun (x y : Nat × ℚ × List Char) =>
      (cmpOfLt x.2.1 y.2.1).then (listOrdC cmpOfLt x.2.2 y.2.2))
    ?_ ?_ ?_ ?_ h1 h2
  · intro a b c hab hbc
    exact cmpOfLt_lt_trans hab hbc
  · intro a b c h
    dsimp only at h ⊢
    rw [(cmpOfLt_eq_iff _ _).mp h]
  · intro b c a h
    dsimp only at h ⊢
    rw [(cmpOfLt_eq_iff _ _).mp h]
  · intro a b c hab hbc
    dsimp only at hab hbc ⊢
    refine thenComp_lt_trans (fun (x y : Nat × ℚ × List Char) => cmpOfLt x.2.1 y.2.1)
      (fun (x y : Nat × ℚ × List Char) => listOrdC cmpOfLt x.2.2 y.2.2)
      ?_ ?_ ?_ ?_ hab hbc
    · intro a b c hab hbc
      exact cmpOfLt_lt_trans hab hbc
    · intro a b c h
      dsimp only at h ⊢
      rw [(cmpOfLt_eq_iff _ _).mp h]
    · intro b c a h
      dsimp only at h ⊢
      rw [(cmpOfLt_eq_iff _ _).mp h]
    · intro a b c hab hbc
      dsimp only at hab hbc ⊢
      exact listOrdC_lt_trans cmpOfLt cmpOfLt_eq_iff
        (fun hx hy => cmpOfLt_lt_trans hx hy) hab hbc

/-- Null test identifies the null value. -/
theorem isNullV_iff (v : Value) : v.isNullV = true ↔ v = .null := by
  cases v <;> simp [Value.isNullV]

/-- The per-key cell comparison is reflexive. -/
theorem keyOrd_refl (asc : Bool) (a : Value) : keyOrd asc a a = .eq := by
  unfold keyOrd
  by_cases h : a.isNullV = true
  · simp [h]
  · simp only [Bool.not_eq_true] at h
    simp [h, (tripOrd_eq_iff (cellKey a) (cellKey a)).mpr rfl]

/-- Swapping arguments swaps the per-key cell comparison. -/
theorem keyOrd_swap (asc : Bool) (a b : Value) :
    (keyOrd asc a b).swap = keyOrd asc b a := by
  unfold keyOrd
  cases ha : a.isNullV <;> cases hb : b.isNullV <;>
    simp [ha, hb] <;>
    first
      | rfl
      | (cases asc <;> simp [tripOrd_swap])

/-- The per-key cell comparison is strictly transitive. -/
theorem keyOrd_lt_trans {asc : Bool} {a b c : Value}
    (h1 : keyOrd asc a b = .lt) (h2 : keyOrd asc b c = .lt) :
    keyOrd asc a c = .lt := by
  unfold keyOrd at h1 h2 ⊢
  cases ha : a.isNullV <;> cases hb : b.isNullV <;> cases hc : c.isNullV <;>
    simp [ha, hb, hc] at h1 h2 ⊢ <;>
    cases asc <;>
    simp at h1 h2 ⊢
  · exact tripOrd_lt_trans h2 h1
  · exact tripOrd_lt_trans h1 h2

/-- An `eq` outcome lets the first argument be replaced. -/
theorem keyOrd_eq_subst_left {asc : Bool} {a b : Value} (c : Value)
    (h : keyOrd asc a b = .eq) : keyOrd asc a c = keyOrd asc b c := by
  unfold keyOrd at h ⊢
  cases ha : a.isNullV <;> cases hb : b.isNullV <;> rw [ha, hb] at h
  · have hk : cellKey a = cellKey b := by
      cases asc <;> simp at h
      · exact ((tripOrd_eq_iff _ _).mp h).symm
      · exact (tripOrd_eq_iff _ _).mp h
    rw [hk]
  · exact absurd h (by simp)
  · exact absurd h (by simp)
  · have ha' : a = .null := (isNullV_iff a).mp ha
    have hb' : b = .null := (isNullV_iff b).mp hb
    rw [ha', hb']

/-- An `eq` outcome lets the second argument be replaced. -/
theorem keyOrd_eq_subst_right {asc : Bool} {b c : Value} (a : Value)
    (h : keyOrd asc b c = .eq) : keyOrd asc a b = keyOrd asc a c := by
  have h' : keyOrd asc c b = .eq := by
    rw [← keyOrd_swap asc b c, h]
    rfl
  have := @keyOrd_eq_subst_left asc _ _ a h'
  have hswap : (keyOrd asc c a).swap = keyOrd asc a c := keyOrd_swap asc c a
  have hswap2 : (keyOrd asc b a).swap = keyOrd asc a b := keyOrd_swap asc b a
  rw [← hswap, ← hswap2, this]

/-- Row comparison under a key list is total. -/
theorem rowLeB_total (keys : List (Nat × Bool)) :
    ∀ r s, (rowLeB keys r s || rowLeB keys s r) = true := by
  induction keys with
  | nil => intro r s; rfl
  | cons k rest ih =>
    intro r s
    obtain ⟨i, asc⟩ := k
    simp only [rowLeB]
    rcases h : keyOrd asc (r.getD i Value.null) (s.getD i Value.null) with _ | _ | _
    · simp
    · have h' : keyOrd asc (s.getD i Value.null) (r.getD i Value.null) = .eq := by
        rw [← keyOrd_swap asc, h]
        rfl
      rw [h']
      exact ih r s
    · have h' : keyOrd asc (s.getD i Value.null) (r.getD i Value.null) = .lt := by
        rw [← keyOrd_swap asc, h]
        rfl
      rw [h']
      simp

/-- Row comparison under a key list is transitive. -/
theorem rowLeB_trans (keys : List (Nat × Bool)) :
    ∀ {r s t}, rowLeB keys r s = true → rowLeB keys s t = true →
      rowLeB keys r t = true := by
  induction keys with
  | nil => intro r s t _ _; rfl
  | cons k rest ih =>
    obtain ⟨i, asc⟩ := k
    intro r s t h1 h2
    simp only [rowLeB] at h1 h2 ⊢
    rcases hab : keyOrd asc (r.getD i Value.null) (s.getD i Value.null) with _ | _ | _ <;>
      rw [hab] at h1
    · rcases hbc : keyOrd asc (s.getD i Value.null) (t.getD i Value.null) with _ | _ | _ <;>
        rw [hbc] at h2
      · rw [keyOrd_lt_trans hab hbc]
      · rw [← keyOrd_eq_subst_right _ hbc, hab]
      · simp at h2
    · rcases hbc : keyOrd asc (s.getD i Value.null) (t.getD i Value.null) with _ | _ | _ <;>
        rw [hbc] at h2
      · rw [keyOrd_eq_subst_left _ hab, hbc]
      · rw [keyOrd_eq_subst_left _ hab, hbc]
        exact ih h1 h2
      · simp at h2
    · simp at h1

/-- Rows with equal key tuples compare as ties. -/
theorem rowLeB_of_tuple_eq (keys : List (Nat × Bool)) :
    ∀ {r s}, keys.map (fun p => r.getD p.1 Value.null) =
        keys.map (fun p => s.getD p.1 Value.null) →
      rowLeB keys r s = true := by
  induction keys with
  | nil => intro r s _; rfl
  | cons k rest ih =>
    obtain ⟨i, asc⟩ := k
    intro r s h
    simp only [List.map_cons, List.cons.injEq] at h
    simp only [rowLeB]
    rw [h.1, keyOrd_refl]
    exact ih h.2

/-- A relation holding on all pairs of members holds pairwise. -/
theorem pairwise_of_forall_mem {α : Type} {R : α → α → Prop} :
    ∀ {l : List α}, (∀ a ∈ l, ∀ b ∈ l, R a b) → l.Pairwise R := by
  intro l
  induction l with
  | nil => intro _; exact List.Pairwise.nil
  | cons a as ih =>
    intro h
    refine List.Pairwise.cons ?_ (ih ?_)
    · intro b hb
      exact h a (List.mem_cons_self a as) b (List.mem_cons_of_mem a hb)
    · intro x hx y hy
      exact h x (List.mem_cons_of_mem a hx) y (List.mem_cons_of_mem a hy)

/-! ## C8 — multi-key sorting -/

/-- The stable merge sort by the valid keys preserves the subsequence
of rows carrying any fixed key tuple. -/
theorem mergeSort_rowLeB_filter (t : Table) (keys : List SortKey) (v : List Value) :
    (t.rows.mergeSort (rowLeB (validKeys t keys))).filter
        (fun r => decide (sortKeyTuple t keys r = v)) =
      t.rows.filter (fun r => decide (sortKeyTuple t keys r = v)) := by
  have htrans : ∀ a b c, rowLeB (validKeys t keys) a b = true →
      rowLeB (validKeys t keys) b c = true →
      rowLeB (validKeys t keys) a c = true :=
    fun a b c h1 h2 => rowLeB_trans (validKeys t keys) h1 h2
  have htotal : ∀ a b, (rowLeB (validKeys t keys) a b ||
      rowLeB (validKeys t keys) b a) = true :=
    rowLeB_total (validKeys t keys)
  have hpair : List.Pairwise
      (fun a b => rowLeB (validKeys t keys) a b = true)
      (t.rows.filter (fun r => decide (sortKeyTuple t keys r = v))) := by
    refine pairwise_of_forall_mem ?_
    intro a ha b hb
    have ha' : sortKeyTuple t keys a = v := by
      have := (List.mem_filter.mp ha).2
      simpa using this
    have hb' : sortKeyTuple t keys b = v := by
      have := (List.mem_filter.mp hb).2
      simpa using this
    have hab : sortKeyTuple t keys a = sortKeyTuple t keys b := by
      rw [ha', hb']
    exact rowLeB_of_tuple_eq (validKeys t keys) hab
  have hsub : (t.rows.filter (fun r => decide (sortKeyTuple t keys r = v))).Sublist
      (t.rows.mergeSort (rowLeB (validKeys t keys))) :=
    List.sublist_mergeSort htrans htotal hpair (List.filter_sublist _)
  have hsub2 : (t.rows.filter (fun r => decide (sortKeyTuple t keys r = v))).Sublist
      ((t.rows.mergeSort (rowLeB (validKeys t keys))).filter
        (fun r => decide (sortKeyTuple t keys r = v))) := by
    have hself : (t.rows.filter (fun r => decide (sortKeyTuple t keys r = v))).filter
        (fun r => decide (sortKeyTuple t keys r = v)) =
        t.rows.filter (fun r => decide (sortKeyTuple t keys r = v)) :=
      List.filter_eq_self.mpr (fun a ha => (List.mem_filter.mp ha).2)
    have := hsub.filter (fun r => decide (sortKeyTuple t keys r = v))
    rwa [hself] at this
  have hlen : ((t.rows.mergeSort (rowLeB (validKeys t keys))).filter
      (fun r => decide (sortKeyTuple t keys r = v))).length =
      (t.rows.filter (fun r => decide (sortKeyTuple t keys r = v))).length :=
    ((List.mergeSort_perm t.rows _).filter _).length_eq
  exact (hsub2.eq_of_length hlen.symm).symm

/-- C8 counterexample: with a single remaining sort key,
`DataFrame.sort_values` runs with the default `kind="quicksort"`,
which is not stable, so the sorter's contract admits an output in
which the two rows tied on the key swap their original relative
order: the claimed stability fails on the single-key path. -/
theorem sort_data_unstable_counterexample :
    sort_data_rel tiedFrame [⟨"k", true⟩] tiedFrameSwapped ∧
    tiedFrameSwapped.rows.filter
        (fun r => decide (sortKeyTuple tiedFrame [⟨"k", true⟩] r = [Value.int 1])) ≠
      tiedFrame.rows.filter
        (fun r => decide (sortKeyTuple tiedFrame [⟨"k", true⟩] r = [Value.int 1])) := by
  constructor
  · unfold sort_data_rel
    rw [if_neg (by decide)]
    refine ⟨rfl, by decide, by decide, fun h => absurd h (by decide)⟩
  · decide

/-- C8 (amended): `sort_data` drops sort keys naming unknown columns
and passes the frame through unchanged when none remains; otherwise
the contract `sort_data_rel` holds of the output — columns preserved,
rows permuted into an order sorted by the valid keys — and the stable
merge-sort result satisfies it; stability, the preservation of the
subsequence of rows carrying any fixed key tuple, is guaranteed
exactly on the multi-key path (two or more valid keys, pandas
`lexsort`), not on the single-key quicksort path. -/
theorem sort_data_spec :
    (∀ t keys out, (∀ k ∈ keys, k.column ∉ t.cols) →
      (sort_data_rel t keys out ↔ out = t)) ∧
    (∀ t keys, sort_data_rel t keys (sort_data t keys)) ∧
    (∀ t keys out, sort_data_rel t keys out →
      out.cols = t.cols ∧ out.rows.Perm t.rows ∧
      List.Pairwise (fun r s => rowLeB (validKeys t keys) r s = true) out.rows) ∧
    (∀ t keys out, sort_data_rel t keys out → 2 ≤ (validKeys t keys).length →
      ∀ v, out.rows.filter (fun r => decide (sortKeyTuple t keys r = v)) =
        t.rows.filter (fun r => decide (sortKeyTuple t keys r = v))) := by
  refine ⟨?_, ?_, ?_, ?_⟩
  · intro t keys out h
    unfold sort_data_rel
    have hvk : validKeys t keys = [] := by
      unfold validKeys
      rw [List.filter_eq_nil_iff.mpr ?_]
      · rfl
      · intro k hk
        simpa using h k hk
    rw [hvk]
    simp
  · intro t keys
    unfold sort_data_rel sort_data
    by_cases hvk : (validKeys t keys).isEmpty
    · rw [if_pos hvk, if_pos hvk]
    · rw [if_neg hvk, if_neg hvk]
      refine ⟨rfl, List.mergeSort_perm t.rows _, ?_, fun _ => rfl⟩
      exact @List.sorted_mergeSort (List Value) (rowLeB (validKeys t keys))
        (fun a b c h1 h2 => rowLeB_trans (validKeys t keys) h1 h2)
        (fun a b => rowLeB_total (validKeys t keys) a b) t.rows
  · intro t keys out h
    unfold sort_data_rel at h
    by_cases hvk : (validKeys t keys).isEmpty
    · rw [if_pos hvk] at h
      rw [h]
      refine ⟨rfl, List.Perm.refl _, ?_⟩
      have hnil : validKeys t keys = [] := List.isEmpty_iff.mp hvk
      rw [hnil]
      exact pairwise_of_forall_mem (fun a _ b _ => rfl)
    · rw [if_neg hvk] at h
      exact ⟨h.1, h.2.1, h.2.2.1⟩
  · intro t keys out h hlen v
    unfold sort_data_rel at h
    by_cases hvk : (validKeys t keys).isEmpty
    · rw [List.isEmpty_iff.mp hvk] at hlen
      exact absurd hlen (by decide)
    · rw [if_neg hvk] at h
      rw [h.2.2.2 hlen]
      exact mergeSort_rowLeB_filter t keys v

/-- C8 witness: a sort key naming an absent column passes a concrete
frame through unchanged. -/
theorem sort_data_spec_witness :
    sort_data_rel ⟨["a"], [[Value.int 2], [Value.int 1]]⟩ [⟨"zz", true⟩]
      ⟨["a"], [[Value.int 2], [Value.int 1]]⟩ :=
  (sort_data_spec.1 ⟨["a"], [[Value.int 2], [Value.int 1]]⟩ [⟨"zz", true⟩]
    ⟨["a"], [[Value.int 2], [Value.int 1]]⟩ (by decide)).mpr rfl
